/-
  Verification of the news-agg ingestion core against its specification.

  The Python sources under src/backend/src/news_agg are shallowly embedded:
  pure functions become Lean functions, stateful worker steps become explicit
  state passing, SQL queries over in-memory table models, and Unicode text
  operations over lists of code points (ℕ) restricted to the character data
  the development needs.
-/
import Mathlib

namespace NewsAgg

/-! ## Dead-link registry (db.py)

`dead_links` rows carry `source_id`, `url`, `error_type`, `first_failed_at`,
`retry_count`.  Timestamps are modelled as `Int` seconds since the epoch. -/

structure DeadLink where
  sourceId : Nat
  url : String
  errorType : String
  firstFailedAt : Int
  retryCount : Nat
  deriving DecidableEq, Repr

/-- WHERE clause of `get_dead_urls` / `get_all_dead_urls` (db.py lines 90-95 and
109-114): `retry_count >= 3 OR (retry_count = 0 AND first_failed_at + interval
'7 days' > NOW()) OR (retry_count = 1 AND ... '14 days' ...) OR (retry_count = 2
AND ... '30 days' ...)`. -/
def deadLinkDueClause (now : Int) (r : DeadLink) : Bool :=
  decide (3 ≤ r.retryCount)
    || (r.retryCount == 0 && decide (now < r.firstFailedAt + 7 * 86400))
    || (r.retryCount == 1 && decide (now < r.firstFailedAt + 14 * 86400))
    || (r.retryCount == 2 && decide (now < r.firstFailedAt + 30 * 86400))

/-- `get_dead_urls` (db.py lines 78-100): batch check returning the queried urls
of the source that should still be skipped.  The guard mirrors the early return
on an empty url list. -/
def getDeadUrls (table : List DeadLink) (sourceId : Nat) (urls : List String)
    (now : Int) : List String :=
  if urls.isEmpty then []
  else
    (table.filter fun r =>
      r.sourceId == sourceId && urls.contains r.url && deadLinkDueClause now r).map
      (·.url)

/-- `get_all_dead_urls` (db.py lines 103-118): all suppressed urls of a source. -/
def getAllDeadUrls (table : List DeadLink) (sourceId : Nat) (now : Int) :
    List String :=
  (table.filter fun r => r.sourceId == sourceId && deadLinkDueClause now r).map
    (·.url)

/-- The backoff schedule of the specification, in days: retry_count 0 → 7 days,
1 → 14 days, 2 → 30 days. -/
def backoffDays : List Nat := [7, 14, 30]

/-- The suppression condition exactly as the specification words it: retry_count
at least 3, or retry_count = k with k one of 0, 1, 2 and now earlier than
first_failed_at plus backoff k. -/
def suppressedSpec (now : Int) (r : DeadLink) : Prop :=
  3 ≤ r.retryCount ∨
    (r.retryCount < 3 ∧
      now < r.firstFailedAt + 86400 * (backoffDays.getD r.retryCount 0 : Int))

instance (now : Int) (r : DeadLink) : Decidable (suppressedSpec now r) := by
  unfold suppressedSpec; infer_instance

/-! ## Rate limiter (utils/rate_limit.py) and the scheduler's pick step

The `RateLimiter` class defines `__init__` (setting `_delay`, `_last_request`,
`_lock`) and the single method `wait`.  Attribute access on an instance is
modelled by lookup in this attribute list; a name that is absent raises
`AttributeError`, as in Python. -/

def rateLimiterAttrs : List String :=
  ["_delay", "_last_request", "_lock", "wait"]

/-- Result of evaluating a Python expression: a value, or an uncaught
AttributeError. -/
inductive PyResult (α : Type) where
  | ok : α → PyResult α
  | attributeError : String → PyResult α
  deriving DecidableEq, Repr

/-- The per-source probe of `IntelligentScheduler._pick_next` (scheduler.py
lines 131-137): when the source's queue is non-empty and `active_count` is
below `max_concurrency`, it evaluates `state.rate_limiter.time_until_ready()`
to obtain the wait time.  The attribute lookup is modelled against
`rateLimiterAttrs`; the `ok` payload would be the method's return value, which
is unreachable because the class never defines the method. -/
def pickNextScanSource (queueEmpty : Bool) (activeCount maxConcurrency : Nat) :
    PyResult (Option Int) :=
  if !queueEmpty && activeCount < maxConcurrency then
    if rateLimiterAttrs.contains "time_until_ready" then
      .ok (some 0)
    else
      .attributeError "RateLimiter object has no attribute time_until_ready"
  else
    .ok none

/-! ## Autoscaler (scheduler.py lines 226-273)

A worker task is modelled by whether it has finished, whether it is currently
awaiting inside `_scrape_and_insert` (an in-flight scrape), whether
`task.cancel()` has been called on it, and whether that cancellation aborted an
in-flight scrape.  `task.cancel()` delivers CancelledError at the task's next
suspension point, so a worker that is mid-scrape has that scrape aborted; the
worker never re-reads `_stop_event` first. -/

structure WorkerTask where
  done : Bool
  inFlight : Bool
  cancelled : Bool
  scrapeAborted : Bool
  deriving DecidableEq, Repr

structure AutoscalerView where
  workers : List WorkerTask
  stopEventSet : Bool
  recentScraped : Nat
  recentErrors : Nat
  queueDepth : Nat
  deriving DecidableEq, Repr

def maxWorkers : Nat := 25

def scaleUpStep : Nat := 2

/-- `self._active_workers()` (scheduler.py lines 179-180). -/
def activeWorkers (ws : List WorkerTask) : Nat :=
  (ws.filter fun t => !t.done).length

/-- `error_rate >= self.ERROR_RATE_BACKOFF` with `error_rate =
recent_errors / max(recent_total, 1)` and threshold 0.3 (scheduler.py lines
237-239 and 74), cleared of the division. -/
def errorRateHigh (recentErrors recentScraped : Nat) : Bool :=
  decide (3 * max recentScraped 1 ≤ 10 * recentErrors)

/-- Effect of `task.cancel()` on a worker: CancelledError is raised at its next
await point, so the task finishes immediately and any scrape it was inside is
aborted rather than run to completion. -/
def cancelTask (t : WorkerTask) : WorkerTask :=
  { t with done := true, cancelled := true, scrapeAborted := t.inFlight }

/-- The scale-down loop (scheduler.py lines 253-257): walk the worker list
newest-first, cancelling live tasks while `active > target`.  The argument list
is the reversed `_worker_tasks`. -/
def scaleDownPass (target : Nat) : Nat → List WorkerTask → List WorkerTask
  | _, [] => []
  | active, t :: ts =>
    if !t.done && target < active then
      cancelTask t :: scaleDownPass target (active - 1) ts
    else
      t :: scaleDownPass target active ts

def freshWorker : WorkerTask :=
  ⟨false, false, false, false⟩

/-- One pass of `IntelligentScheduler._autoscaler` (scheduler.py lines
230-271), before the final prune of completed handles.  Scale down halves the
pool via `task.cancel()`; scale up appends `min(2, max_workers - active)` fresh
workers. -/
def autoscalerStep (v : AutoscalerView) : AutoscalerView :=
  let active := activeWorkers v.workers
  if errorRateHigh v.recentErrors v.recentScraped && decide (1 < active) then
    let target := max 1 (active / 2)
    { v with workers := (scaleDownPass target active v.workers.reverse).reverse }
  else if decide (active * 2 < v.queueDepth) && decide (active < maxWorkers) then
    { v with workers :=
        v.workers ++ List.replicate (min scaleUpStep (maxWorkers - active)) freshWorker }
  else
    v

/-- `self._worker_tasks = [t for t in self._worker_tasks if not t.done()]`
(scheduler.py line 271). -/
def pruneWorkers (ws : List WorkerTask) : List WorkerTask :=
  ws.filter fun t => !t.done

/-! ## Date extraction (text/dates.py)

Strings are modelled as `List Char`.  The inputs exercised by the date code are
ASCII, so the ASCII reading of `\\d`, `\\s`, `\\w` and of case-insensitive
matching is used.  A Python `datetime` becomes `PyDateTime` with the utcoffset
in seconds (`tz = none` for a naive value); `now` is an `Int` of UTC epoch
seconds.  The source compares a naive datetime against the Asia/Colombo wall
clock (dates.py line 64), which is the `tz.getD 19800` convention of
`instantSec`. -/

def sriLankaTZ : Int := 19800

structure PyDateTime where
  year : Nat
  month : Nat
  day : Nat
  hour : Nat
  minute : Nat
  second : Nat
  tz : Option Int
  deriving DecidableEq, Repr

def isLeapYear (y : Nat) : Bool :=
  y % 4 == 0 && (y % 100 != 0 || y % 400 == 0)

def daysInMonth (y m : Nat) : Nat :=
  if m == 2 then (if isLeapYear y then 29 else 28)
  else if m == 4 || m == 6 || m == 9 || m == 11 then 30
  else 31

/-- Validity condition enforced by `datetime.__new__` / `datetime.strptime`
for the fields the embedding carries. -/
def dateFieldsValid (y m d : Nat) : Bool :=
  decide (1 ≤ y) && decide (y ≤ 9999) && decide (1 ≤ m) && decide (m ≤ 12) &&
    decide (1 ≤ d) && decide (d ≤ daysInMonth y m)

/-- Rata-die day number of a Gregorian date (day 1 = 0001-01-01), valid for
year ≥ 1; 1970-01-01 is day 719163. -/
def rataDie (y m d : Nat) : Int :=
  365 * ((y : Int) - 1) + (((y - 1) / 4 : Nat) : Int) - (((y - 1) / 100 : Nat) : Int)
    + (((y - 1) / 400 : Nat) : Int) + (((367 * m - 362) / 12 : Nat) : Int)
    + (if m ≤ 2 then 0 else if isLeapYear y then -1 else -2) + (d : Int)

/-- Naive wall-clock value in seconds since the epoch's wall clock. -/
def naiveSec (dt : PyDateTime) : Int :=
  (rataDie dt.year dt.month dt.day - 719163) * 86400
    + dt.hour * 3600 + dt.minute * 60 + dt.second

/-- Absolute instant in UTC epoch seconds; a naive datetime is read on the
Asia/Colombo clock, matching the comparison convention of `_is_valid_date`. -/
def instantSec (dt : PyDateTime) : Int :=
  naiveSec dt - dt.tz.getD sriLankaTZ

/-- `_is_valid_date` (dates.py lines 56-67): reject year < 2006 and instants
more than two days in the future. -/
def isValidDate (now : Int) (dt : PyDateTime) : Bool :=
  decide (2006 ≤ dt.year) && decide (instantSec dt ≤ now + 2 * 86400)

/-- `dt if dt.tzinfo else dt.replace(tzinfo=_SRI_LANKA_TZ)` (dates.py line
77). -/
def withDefaultTZ (dt : PyDateTime) : PyDateTime :=
  { dt with tz := some (dt.tz.getD sriLankaTZ) }

/-- `dt.replace(tzinfo=_SRI_LANKA_TZ)` applied to a naive parse. -/
def stampSL (dt : PyDateTime) : PyDateTime :=
  { dt with tz := some sriLankaTZ }

/-! ### Character scanners

Hand-rolled recognisers for the fixed regular expressions of dates.py.  Each
follows the regex left to right; bounded alternation (`\\d{1,2}` greedy,
month-name alternation in source order) is realised by trying the longer or
earlier alternative first and falling back through the continuation `k`. -/

def digitVal (c : Char) : Nat := c.toNat - 48

def isWordCh (c : Char) : Bool := c.isAlphanum || c == '_'

/-- Python `\\s` over the ASCII range. -/
def isWsCh (c : Char) : Bool :=
  c == ' ' || c == '\t' || c == '\n' || c == '\r'
    || c.toNat == 11 || c.toNat == 12

/-- ASCII lowercase, for `re.IGNORECASE` comparisons. -/
def lowerCh (c : Char) : Char :=
  if 'A' ≤ c && c ≤ 'Z' then Char.ofNat (c.toNat + 32) else c

/-- A regex word boundary `\\b` just before a word character, given the
previous character (none at the start of the string). -/
def boundaryBefore (prev : Option Char) : Bool :=
  match prev with
  | none => true
  | some c => !isWordCh c

/-- A `\\b` just after a word character: the next character must not be a word
character. -/
def boundaryAfter : List Char → Bool
  | [] => true
  | c :: _ => !isWordCh c

/-- Greedy `\\d{1,2}`: try two digits, then one, handing the value and the
rest to the continuation. -/
def scanD2or1 {α : Type} (s : List Char) (k : Nat → List Char → Option α) :
    Option α :=
  match s with
  | a :: b :: rest =>
    if a.isDigit && b.isDigit then
      (k (digitVal a * 10 + digitVal b) rest).orElse
        (fun _ => k (digitVal a) (b :: rest))
    else if a.isDigit then k (digitVal a) (b :: rest)
    else none
  | [a] => if a.isDigit then k (digitVal a) [] else none
  | [] => none

/-- Exactly two digits. -/
def scanD2 {α : Type} (s : List Char) (k : Nat → List Char → Option α) :
    Option α :=
  match s with
  | a :: b :: rest =>
    if a.isDigit && b.isDigit then k (digitVal a * 10 + digitVal b) rest else none
  | _ => none

/-- Exactly four digits. -/
def scanD4 {α : Type} (s : List Char) (k : Nat → List Char → Option α) :
    Option α :=
  match s with
  | a :: b :: c :: d :: rest =>
    if a.isDigit && b.isDigit && c.isDigit && d.isDigit then
      k (digitVal a * 1000 + digitVal b * 100 + digitVal c * 10 + digitVal d) rest
    else none
  | _ => none

/-- `\\s+`: at least one whitespace character, consumed greedily (every use in
these patterns is followed by a non-whitespace class, so maximal munch agrees
with the regex). -/
def scanWs1 {α : Type} (s : List Char) (k : List Char → Option α) : Option α :=
  match s with
  | c :: rest => if isWsCh c then k (rest.dropWhile isWsCh) else none
  | [] => none

/-- `\\s*` with a count of consumed characters (the count decides whether a
later `strptime` whitespace slot can match). -/
def scanWsStar {α : Type} (s : List Char) (k : Nat → List Char → Option α) :
    Option α :=
  k (s.takeWhile isWsCh).length (s.dropWhile isWsCh)

/-- Case-insensitive literal, returning the rest of the input. -/
def ciDrop : List Char → List Char → Option (List Char)
  | [], s => some s
  | _ :: _, [] => none
  | p :: ps, c :: cs => if lowerCh p == lowerCh c then ciDrop ps cs else none

/-- Month-name alternation in the order of the source pattern, with regex
backtracking: if the continuation fails after one alternative, the next
alternative is tried. -/
def scanMonthAlt {α : Type} (names : List (String × Nat)) (s : List Char)
    (k : Nat → List Char → Option α) : Option α :=
  match names with
  | [] => none
  | (nm, idx) :: rest =>
    match ciDrop nm.data s with
    | some tail => (k idx tail).orElse (fun _ => scanMonthAlt rest s k)
    | none => scanMonthAlt rest s k

/-- `_MONTHS` (dates.py lines 14-17). -/
def monthsFull : List (String × Nat) :=
  [("January", 1), ("February", 2), ("March", 3), ("April", 4), ("May", 5),
   ("June", 6), ("July", 7), ("August", 8), ("September", 9), ("October", 10),
   ("November", 11), ("December", 12)]

/-- `_MONTHS_SHORT` (dates.py line 18). -/
def monthsShort : List (String × Nat) :=
  [("Jan", 1), ("Feb", 2), ("Mar", 3), ("Apr", 4), ("May", 5), ("Jun", 6),
   ("Jul", 7), ("Aug", 8), ("Sep", 9), ("Oct", 10), ("Nov", 11), ("Dec", 12)]

/-- `(?:am|pm)` case-insensitive; the payload is true for pm. -/
def scanAmPm {α : Type} (s : List Char) (k : Bool → List Char → Option α) :
    Option α :=
  match ciDrop "am".data s with
  | some tail => k false tail
  | none =>
    match ciDrop "pm".data s with
    | some tail => k true tail
    | none => none

/-- Captures of a time group `\\d{1,2}:\\d{2}\\s*(?:am|pm)` (with the am/pm
marker optional in `_PAT_LONG`): hour, minute, number of whitespace characters
before the marker, and the marker if present. -/
structure TimeCaps where
  hour : Nat
  minute : Nat
  wsBeforeAmPm : Nat
  isPM : Option Bool
  deriving DecidableEq, Repr

structure MDYCaps where
  month : Nat
  day : Nat
  year : Nat
  time : Option TimeCaps
  deriving DecidableEq, Repr

/-- Time group with the am/pm marker optional (`_PAT_LONG`). -/
def scanTimeOptAmPm {α : Type} (s : List Char)
    (k : TimeCaps → List Char → Option α) : Option α :=
  scanD2or1 s fun h s1 =>
    match s1 with
    | ':' :: s2 =>
      scanD2 s2 fun mnt s3 =>
        scanWsStar s3 fun nws s4 =>
          (scanAmPm s4 fun pm rest => k ⟨h, mnt, nws, some pm⟩ rest).orElse
            (fun _ => k ⟨h, mnt, nws, none⟩ s4)
    | _ => none

/-- Time group with the am/pm marker required (`_PAT_DMY_LONG_TIME`). -/
def scanTimeReqAmPm {α : Type} (s : List Char)
    (k : TimeCaps → List Char → Option α) : Option α :=
  scanD2or1 s fun h s1 =>
    match s1 with
    | ':' :: s2 =>
      scanD2 s2 fun mnt s3 =>
        scanWsStar s3 fun nws s4 =>
          scanAmPm s4 fun pm rest => k ⟨h, mnt, nws, some pm⟩ rest
    | _ => none

/-- `,?`: an optional comma (always followed by `\\s+` in these patterns, so
taking it greedily agrees with the regex). -/
def dropOptComma (s : List Char) : List Char :=
  match s with
  | ',' :: rest => rest
  | _ => s

/-- `_PAT_LONG` (dates.py lines 21-24) anchored at one position:
`\\b(months)\\s+(\\d{1,2}),?\\s+(\\d{4})\\s+(\\d{1,2}:\\d{2}\\s*(?:am|pm)?)`. -/
def matchPatLongAt (prev : Option Char) (s : List Char) : Option MDYCaps :=
  if boundaryBefore prev then
    scanMonthAlt monthsFull s fun mi s1 =>
      scanWs1 s1 fun s2 =>
        scanD2or1 s2 fun day s3 =>
          scanWs1 (dropOptComma s3) fun s5 =>
            scanD4 s5 fun year s6 =>
              scanWs1 s6 fun s7 =>
                scanTimeOptAmPm s7 fun tc _ => some ⟨mi, day, year, some tc⟩
  else none

/-- `_PAT_DATE_ONLY` (dates.py lines 27-30):
`\\b(months)\\s+(\\d{1,2}),?\\s+(\\d{4})\\b`. -/
def matchPatDateOnlyAt (prev : Option Char) (s : List Char) : Option MDYCaps :=
  if boundaryBefore prev then
    scanMonthAlt monthsFull s fun mi s1 =>
      scanWs1 s1 fun s2 =>
        scanD2or1 s2 fun day s3 =>
          scanWs1 (dropOptComma s3) fun s5 =>
            scanD4 s5 fun year s6 =>
              if boundaryAfter s6 then some ⟨mi, day, year, none⟩ else none
  else none

/-- A `[-./]` separator. -/
def isIsoSep (c : Char) : Bool := c == '-' || c == '.' || c == '/'

/-- `_PAT_ISO` (dates.py line 33): `\\b(\\d{4})[-./](\\d{2})[-./](\\d{2})\\b`;
capture order year, month, day. -/
def matchPatIsoAt (prev : Option Char) (s : List Char) :
    Option (Nat × Nat × Nat) :=
  if boundaryBefore prev then
    scanD4 s fun y s1 =>
      match s1 with
      | c1 :: s2 =>
        if isIsoSep c1 then
          scanD2 s2 fun m s3 =>
            match s3 with
            | c2 :: s4 =>
              if isIsoSep c2 then
                scanD2 s4 fun d s5 =>
                  if boundaryAfter s5 then some (y, m, d) else none
              else none
            | [] => none
        else none
      | [] => none
  else none

/-- `_PAT_DMY_LONG_TIME` (dates.py lines 36-39):
`\\b(\\d{1,2})\\s+(full|short months)\\s+(\\d{4})\\s+(time with am/pm)`. -/
def matchPatDmyLongTimeAt (prev : Option Char) (s : List Char) :
    Option MDYCaps :=
  if boundaryBefore prev then
    scanD2or1 s fun day s1 =>
      scanWs1 s1 fun s2 =>
        scanMonthAlt (monthsFull ++ monthsShort) s2 fun mi s3 =>
          scanWs1 s3 fun s4 =>
            scanD4 s4 fun year s5 =>
              scanWs1 s5 fun s6 =>
                scanTimeReqAmPm s6 fun tc _ => some ⟨mi, day, year, some tc⟩
  else none

/-- `_PAT_DMY_LONG` (dates.py lines 42-45):
`\\b(\\d{1,2})\\s+(full|short months)\\s+(\\d{4})\\b`. -/
def matchPatDmyLongAt (prev : Option Char) (s : List Char) : Option MDYCaps :=
  if boundaryBefore prev then
    scanD2or1 s fun day s1 =>
      scanWs1 s1 fun s2 =>
        scanMonthAlt (monthsFull ++ monthsShort) s2 fun mi s3 =>
          scanWs1 s3 fun s4 =>
            scanD4 s4 fun year s5 =>
              if boundaryAfter s5 then some ⟨mi, day, year, none⟩ else none
  else none

/-- `_PAT_DMY` (dates.py line 48): day, then a slash or dash, then month, then
a slash or dash, then a four-digit year, with word boundaries at both ends;
capture order day, month, year. -/
def matchPatDmyAt (prev : Option Char) (s : List Char) :
    Option (Nat × Nat × Nat) :=
  if boundaryBefore prev then
    scanD2or1 s fun d s1 =>
      match s1 with
      | c1 :: s2 =>
        if c1 == '/' || c1 == '-' then
          scanD2or1 s2 fun m s3 =>
            match s3 with
            | c2 :: s4 =>
              if c2 == '/' || c2 == '-' then
                scanD4 s4 fun y s5 =>
                  if boundaryAfter s5 then some (d, m, y) else none
              else none
            | [] => none
        else none
      | [] => none
  else none

/-- `_PAT_URL` (dates.py line 51): `/(\\d{4})/(\\d{2})/(\\d{2})/`. -/
def matchPatUrlAt (_prev : Option Char) (s : List Char) :
    Option (Nat × Nat × Nat) :=
  match s with
  | '/' :: s1 =>
    scanD4 s1 fun y s2 =>
      match s2 with
      | '/' :: s3 =>
        scanD2 s3 fun m s4 =>
          match s4 with
          | '/' :: s5 =>
            scanD2 s5 fun d s6 =>
              match s6 with
              | '/' :: _ => some (y, m, d)
              | _ => none
          | _ => none
      | _ => none
  | _ => none

/-- `re.search`: try the anchored matcher at every position, leftmost first,
tracking the previous character for word boundaries. -/
def searchAt {α : Type} (f : Option Char → List Char → Option α) :
    Option Char → List Char → Option α
  | prev, [] => f prev []
  | prev, c :: cs => (f prev (c :: cs)).orElse fun _ => searchAt f (some c) cs

def searchPat {α : Type} (f : Option Char → List Char → Option α)
    (s : List Char) : Option α :=
  searchAt f none s

/-- `%I` plus `%p`: convert a 1-12 hour and an am/pm flag to a 24-hour value. -/
def hourFrom12 (h : Nat) (pm : Bool) : Nat :=
  if pm then (if h == 12 then 12 else h + 12)
  else (if h == 12 then 0 else h)

/-- `datetime.strptime(f"{month} {day}, {year} {time}", "%B %d, %Y %I:%M %p")`
applied to the captures (dates.py lines 103-106 and 136-145): the am/pm marker
must be present and preceded by whitespace, the hour must lie in 1..12, the
minute below 60, and the calendar date must be constructible. -/
def strptimeMDYTime (c : MDYCaps) : Option PyDateTime :=
  match c.time with
  | some t =>
    match t.isPM with
    | some pm =>
      if dateFieldsValid c.year c.month c.day && decide (1 ≤ t.hour) &&
          decide (t.hour ≤ 12) && decide (t.minute ≤ 59) &&
          decide (1 ≤ t.wsBeforeAmPm) then
        some ⟨c.year, c.month, c.day, hourFrom12 t.hour pm, t.minute, 0, none⟩
      else none
    | none => none
  | none => none

/-- `datetime.strptime(f"{month} {day}, {year}", "%B %d, %Y")` applied to the
captures (dates.py line 116 and 156). -/
def strptimeMDY (c : MDYCaps) : Option PyDateTime :=
  if dateFieldsValid c.year c.month c.day then
    some ⟨c.year, c.month, c.day, 0, 0, 0, none⟩
  else none

/-- `datetime(year, month, day, tzinfo=_SRI_LANKA_TZ)` (dates.py lines 126,
169, 183). -/
def pyDatetimeSL (y m d : Nat) : Option PyDateTime :=
  if dateFieldsValid y m d then some ⟨y, m, d, 0, 0, 0, some sriLankaTZ⟩
  else none

/-- The shared `if _is_valid_date(dt): return ... else fall through` step. -/
def guardValid (now : Int) (od : Option PyDateTime) : Option PyDateTime :=
  match od with
  | some dt => if isValidDate now dt then some dt else none
  | none => none

/-- `extract_date_from_text` (dates.py lines 94-175): the six regex stages in
order; a stage whose regex does not match, whose strptime raises, or whose
result fails `_is_valid_date` falls through to the next stage.  The naive
strptime results are stamped with Asia/Colombo on return. -/
def extractDateFromText (now : Int) (s : List Char) : Option PyDateTime :=
  let p1 :=
    (guardValid now ((searchPat matchPatLongAt s).bind strptimeMDYTime)).map
      stampSL
  let p2 :=
    (guardValid now ((searchPat matchPatDateOnlyAt s).bind strptimeMDY)).map
      stampSL
  let p3 :=
    guardValid now ((searchPat matchPatIsoAt s).bind fun c =>
      pyDatetimeSL c.1 c.2.1 c.2.2)
  let p4a :=
    (guardValid now
      ((searchPat matchPatDmyLongTimeAt s).bind strptimeMDYTime)).map stampSL
  let p4 :=
    (guardValid now ((searchPat matchPatDmyLongAt s).bind strptimeMDY)).map
      stampSL
  let p5 :=
    guardValid now ((searchPat matchPatDmyAt s).bind fun c =>
      pyDatetimeSL c.2.2 c.2.1 c.1)
  ((((p1.orElse fun _ => p2).orElse fun _ => p3).orElse fun _ => p4a).orElse
    fun _ => p4).orElse fun _ => p5

/-- `extract_date_from_url` (dates.py lines 178-188). -/
def extractDateFromUrl (now : Int) (url : List Char) : Option PyDateTime :=
  guardValid now ((searchPat matchPatUrlAt url).bind fun c =>
    pyDatetimeSL c.1 c.2.1 c.2.2)

/-! ### `_safe_parse`: the strict strptime formats and the RFC 2822 fallback -/

/-- `str.strip()` over the whitespace the date strings use. -/
def pyStripCh (s : List Char) : List Char :=
  ((s.dropWhile isWsCh).reverse.dropWhile isWsCh).reverse

/-- strptime `%m`: two digits 01..12, or a single digit 1..9, with regex
backtracking through the continuation. -/
def scanMonthNum {α : Type} (s : List Char) (k : Nat → List Char → Option α) :
    Option α :=
  match s with
  | a :: b :: rest =>
    if (a == '1' && (b == '0' || b == '1' || b == '2')) ||
        (a == '0' && b.isDigit && b != '0') then
      (k (digitVal a * 10 + digitVal b) rest).orElse fun _ =>
        (if a.isDigit && a != '0' then k (digitVal a) (b :: rest) else none)
    else if a.isDigit && a != '0' then k (digitVal a) (b :: rest)
    else none
  | [a] => if a.isDigit && a != '0' then k (digitVal a) [] else none
  | [] => none

/-- strptime `%d`: 01..31 as two digits, or a single digit 1..9. -/
def scanDayNum {α : Type} (s : List Char) (k : Nat → List Char → Option α) :
    Option α :=
  match s with
  | a :: b :: rest =>
    if (a == '3' && (b == '0' || b == '1')) ||
        ((a == '1' || a == '2') && b.isDigit) ||
        (a == '0' && b.isDigit && b != '0') then
      (k (digitVal a * 10 + digitVal b) rest).orElse fun _ =>
        (if a.isDigit && a != '0' then k (digitVal a) (b :: rest) else none)
    else if a.isDigit && a != '0' then k (digitVal a) (b :: rest)
    else none
  | [a] => if a.isDigit && a != '0' then k (digitVal a) [] else none
  | [] => none

/-- strptime `%H`: 00..23 as two digits, or any single digit. -/
def scanHourNum {α : Type} (s : List Char) (k : Nat → List Char → Option α) :
    Option α :=
  match s with
  | a :: b :: rest =>
    if ((a == '2' && (b == '0' || b == '1' || b == '2' || b == '3')) ||
        ((a == '0' || a == '1') && b.isDigit)) then
      (k (digitVal a * 10 + digitVal b) rest).orElse fun _ =>
        (if a.isDigit then k (digitVal a) (b :: rest) else none)
    else if a.isDigit then k (digitVal a) (b :: rest)
    else none
  | [a] => if a.isDigit then k (digitVal a) [] else none
  | [] => none

/-- strptime `%M`: 00..59 as two digits, or any single digit. -/
def scanMinNum {α : Type} (s : List Char) (k : Nat → List Char → Option α) :
    Option α :=
  match s with
  | a :: b :: rest =>
    if a.isDigit && digitVal a ≤ 5 && b.isDigit then
      (k (digitVal a * 10 + digitVal b) rest).orElse fun _ =>
        (if a.isDigit then k (digitVal a) (b :: rest) else none)
    else if a.isDigit then k (digitVal a) (b :: rest)
    else none
  | [a] => if a.isDigit then k (digitVal a) [] else none
  | [] => none

/-- strptime `%S`: 60 and 61 as two digits, 00..59 as two digits, or any
single digit (the datetime constructor later rejects 60 and 61). -/
def scanSecNum {α : Type} (s : List Char) (k : Nat → List Char → Option α) :
    Option α :=
  match s with
  | a :: b :: rest =>
    if (a == '6' && (b == '0' || b == '1')) ||
        (a.isDigit && digitVal a ≤ 5 && b.isDigit) then
      (k (digitVal a * 10 + digitVal b) rest).orElse fun _ =>
        (if a.isDigit then k (digitVal a) (b :: rest) else none)
    else if a.isDigit then k (digitVal a) (b :: rest)
    else none
  | [a] => if a.isDigit then k (digitVal a) [] else none
  | [] => none

/-- `.%f` for the fractional-seconds format: a dot and one to six digits (the
microseconds do not affect the comparisons and are dropped). -/
def scanFrac (s : List Char) : Option (List Char) :=
  match s with
  | '.' :: rest =>
    let digs := (rest.takeWhile Char.isDigit).length
    if 1 ≤ digs && digs ≤ 6 then some (rest.dropWhile Char.isDigit) else none
  | _ => none

/-- strptime `%z`: `Z`, or a sign, two hour digits, an optional colon, a
minute pair 00..59, and an optional seconds pair (fraction-of-second offsets
are not modelled).  Yields the utcoffset in seconds. -/
def scanTZOffset {α : Type} (s : List Char) (k : Int → List Char → Option α) :
    Option α :=
  match s with
  | 'Z' :: rest => k 0 rest
  | c :: rest =>
    if c == '+' || c == '-' then
      scanD2 rest fun hh s1 =>
        let s2 := match s1 with
          | ':' :: r => r
          | _ => s1
        match s2 with
        | a :: b :: s3 =>
          if a.isDigit && digitVal a ≤ 5 && b.isDigit then
            let mm := digitVal a * 10 + digitVal b
            let base : Int := hh * 3600 + mm * 60
            let signed : Int := if c == '-' then -base else base
            let s4 := match s3 with
              | ':' :: r => r
              | _ => s3
            (match s4 with
             | x :: y :: s5 =>
               if x.isDigit && digitVal x ≤ 5 && y.isDigit then
                 let ss := digitVal x * 10 + digitVal y
                 let withSec : Int :=
                   if c == '-' then -(base + ss) else base + ss
                 k withSec s5
               else k signed s3
             | _ => k signed s3).orElse fun _ => k signed s3
          else none
        | _ => none
    else none
  | [] => none

/-- One of the aware strptime formats of `_safe_parse` (dates.py line 73):
`%Y-%m-%d` then `tSep` then `%H:%M:%S`, an optional `.%f` when `withFrac`, and
a mandatory `%z`; the whole string must be consumed and the calendar date must
be constructible. -/
def parseFmtIsoTZ (tSep : Char) (withFrac : Bool) (s : List Char) :
    Option PyDateTime :=
  scanD4 s fun y s1 =>
    match s1 with
    | '-' :: s2 =>
      scanMonthNum s2 fun mo s3 =>
        match s3 with
        | '-' :: s4 =>
          scanDayNum s4 fun d s5 =>
            match s5 with
            | c :: s6 =>
              if c == tSep then
                scanHourNum s6 fun h s7 =>
                  match s7 with
                  | ':' :: s8 =>
                    scanMinNum s8 fun mi s9 =>
                      match s9 with
                      | ':' :: s10 =>
                        scanSecNum s10 fun sec s11 =>
                          match (if withFrac then scanFrac s11 else some s11) with
                          | some s12 =>
                            scanTZOffset s12 fun off s13 =>
                              if s13.isEmpty && decide (sec ≤ 59) &&
                                  dateFieldsValid y mo d then
                                some ⟨y, mo, d, h, mi, sec, some off⟩
                              else none
                          | none => none
                      | _ => none
                  | _ => none
              else none
            | [] => none
        | _ => none
    | _ => none

/-- The naive `%Y-%m-%d` format of `_safe_parse`. -/
def parseFmtYmd (s : List Char) : Option PyDateTime :=
  scanD4 s fun y s1 =>
    match s1 with
    | '-' :: s2 =>
      scanMonthNum s2 fun mo s3 =>
        match s3 with
        | '-' :: s4 =>
          scanDayNum s4 fun d s5 =>
            if s5.isEmpty && dateFieldsValid y mo d then
              some ⟨y, mo, d, 0, 0, 0, none⟩
            else none
        | _ => none
    | _ => none

/-- The strict-format loop of `_safe_parse` (dates.py lines 73-79): the first
format that both parses and passes `_is_valid_date` wins, naive results are
stamped with Asia/Colombo; a parse that fails validation falls through to the
next format. -/
def firstValidFmt (now : Int) : List (Option PyDateTime) → Option PyDateTime
  | [] => none
  | od :: rest =>
    match od with
    | some dt =>
      if isValidDate now dt then some (withDefaultTZ dt)
      else firstValidFmt now rest
    | none => firstValidFmt now rest

/-- `str.split()`: split on whitespace runs, dropping empty pieces. -/
def splitWsAux (cur : List Char) : List Char → List (List Char)
  | [] => if cur.isEmpty then [] else [cur.reverse]
  | c :: cs =>
    if isWsCh c then
      if cur.isEmpty then splitWsAux [] cs
      else cur.reverse :: splitWsAux [] cs
    else splitWsAux (c :: cur) cs

def splitWs (s : List Char) : List (List Char) :=
  splitWsAux [] s

def parseNatDigits (t : List Char) : Option Nat :=
  if !t.isEmpty && t.all Char.isDigit then
    some (t.foldl (fun acc c => acc * 10 + digitVal c) 0)
  else none

def rfcDayNames : List String :=
  ["mon", "tue", "wed", "thu", "fri", "sat", "sun"]

def rfcMonthNames : List (String × Nat) :=
  [("jan", 1), ("feb", 2), ("mar", 3), ("apr", 4), ("may", 5), ("jun", 6),
   ("jul", 7), ("aug", 8), ("sep", 9), ("oct", 10), ("nov", 11), ("dec", 12)]

def lowerChars (s : List Char) : List Char := s.map lowerCh

def rfcLookupMonth (t : List Char) : Option Nat :=
  (rfcMonthNames.find? fun p => p.fst.data == lowerChars t).map (·.snd)

/-- RFC 2822 two-digit year windowing of `_parsedate_tz`. -/
def rfcFixYear (y : Nat) : Nat :=
  if y ≤ 68 then y + 2000 else if y < 100 then y + 1900 else y

/-- Timezone token of `parsedate_tz`: a signed four-digit offset, or one of
the zero-offset names (the named North-American zones are not modelled). -/
def rfcZone (t : List Char) : Option Int :=
  match t with
  | c :: rest =>
    if c == '+' || c == '-' then
      match parseNatDigits rest with
      | some v =>
        if rest.length == 4 then
          let secs : Int := (v / 100) * 3600 + (v % 100) * 60
          some (if c == '-' then -secs else secs)
        else none
      | none => none
    else if lowerChars t == "gmt".data || lowerChars t == "ut".data ||
        lowerChars t == "utc".data || lowerChars t == "z".data then
      some 0
    else none
  | [] => none

def rfcTime (t : List Char) : Option (Nat × Nat × Nat) :=
  match (t.splitOn ':').map parseNatDigits with
  | [some h, some m, some s] => some (h, m, s)
  | [some h, some m] => some (h, m, 0)
  | _ => none

/-- Core of `email.utils.parsedate_to_datetime` on the main RFC 2822 shape:
an optional weekday token, then day, month name, year, a time, and an optional
zone; out-of-range fields raise in the datetime constructor, and a missing zone
yields a naive datetime.  The swapped day and month order accepted by
`_parsedate_tz` is honoured. -/
def parseRfc2822 (s : List Char) : Option PyDateTime :=
  let toks := splitWs s
  let toks :=
    match toks with
    | t :: rest =>
      if (!t.isEmpty && t.getLast! == ',') ||
          rfcDayNames.contains (String.mk (lowerChars t)) then rest
      else toks
    | [] => toks
  let core :=
    match toks with
    | [dd, mon, yyyy, time, zone] =>
      some (dd, mon, yyyy, some time, some zone)
    | [dd, mon, yyyy, time] => some (dd, mon, yyyy, some time, none)
    | [dd, mon, yyyy] => some (dd, mon, yyyy, none, none)
    | _ => none
  match core with
  | some (dd, mon, yyyy, time, zone) =>
    let dayMonth : Option (Nat × Nat) :=
      match rfcLookupMonth mon, parseNatDigits dd with
      | some m, some d => some (d, m)
      | _, _ =>
        match rfcLookupMonth dd, parseNatDigits mon with
        | some m, some d => some (d, m)
        | _, _ => none
    match dayMonth, parseNatDigits yyyy with
    | some (d, m), some y0 =>
      let y := rfcFixYear y0
      let hms := match time with
        | some t => rfcTime t
        | none => some (0, 0, 0)
      match hms with
      | some (h, mi, sec) =>
        let tz := match zone with
          | some zt => rfcZone zt
          | none => none
        if dateFieldsValid y m d && decide (h ≤ 23) && decide (mi ≤ 59) &&
            decide (sec ≤ 59) then
          match zone with
          | some _ =>
            match tz with
            | some off => some ⟨y, m, d, h, mi, sec, some off⟩
            | none => none
          | none => some ⟨y, m, d, h, mi, sec, none⟩
        else none
      | none => none
    | _, _ => none
  | none => none

/-- `_safe_parse` (dates.py lines 70-91): the strict formats on the stripped
string, then the RFC 2822 fallback on the original string; an RFC result is
returned as-is, naive or not. -/
def safeParse (now : Int) (s : List Char) : Option PyDateTime :=
  let strict := firstValidFmt now
    [parseFmtIsoTZ 'T' false (pyStripCh s), parseFmtIsoTZ 'T' true (pyStripCh s),
     parseFmtIsoTZ ' ' false (pyStripCh s), parseFmtYmd (pyStripCh s)]
  strict.orElse fun _ => guardValid now (parseRfc2822 s)

/-- `extract_date_waterfall` (dates.py lines 191-235).  Each tier is guarded
by Python truthiness — a `None` or empty argument skips the tier — and a tier
returning `None` falls through to the next. -/
def extractDateWaterfall (metaDate selectorDate : Option (List Char))
    (url bodyText : List Char) (rssPubDate : Option (List Char)) (now : Int) :
    Option PyDateTime :=
  let t1 :=
    match metaDate with
    | some m => if m.isEmpty then none else safeParse now m
    | none => none
  let t2 :=
    match selectorDate with
    | some sd => if sd.isEmpty then none else extractDateFromText now sd
    | none => none
  let t3 := extractDateFromUrl now url
  let t4 :=
    if bodyText.isEmpty then none
    else extractDateFromText now (bodyText.take 3000)
  let t5 :=
    match rssPubDate with
    | some r => if r.isEmpty then none else safeParse now r
    | none => none
  ((((t1.orElse fun _ => t2).orElse fun _ => t3).orElse fun _ => t4).orElse
    fun _ => t5)

def firstSomeDT : List (Option PyDateTime) → Option PyDateTime
  | [] => none
  | od :: rest => od.orElse fun _ => firstSomeDT rest

/-! ## Unicode text normalization (text/normalize.py and text/dedup.py)

Python strings are modelled as lists of code points (`List Nat`).  The Unicode
data — combining classes, canonical decompositions and compositions, the word
classes of the regex `\\w`, lowercase mappings — is encoded for the blocks
this development exercises (ASCII, Latin-1, Sinhala, Hangul jamo and
syllables, general punctuation); NFC is implemented per UAX #15 (full
canonical decomposition, canonical ordering, canonical composition with
algorithmic Hangul). -/

def zwnj : Nat := 0x200C

def zwj : Nat := 0x200D

/-- Canonical combining class of the code points in scope (the Sinhala virama
U+0DCA has class 9, U+0301 class 230; the rest are starters). -/
def cccOf (c : Nat) : Nat :=
  if c == 0x0DCA then 9
  else if c == 0x0301 then 230
  else 0

def isHangulSyllable (c : Nat) : Bool :=
  0xAC00 ≤ c && c ≤ 0xD7A3

/-- Full canonical decomposition: algorithmic for Hangul syllables, table
entries for the composed Sinhala vowel signs and two Latin letters; all other
code points in scope are their own decomposition. -/
def canonDecomp (c : Nat) : List Nat :=
  if isHangulSyllable c then
    let i := c - 0xAC00
    let l := 0x1100 + i / 588
    let v := 0x1161 + (i % 588) / 28
    let t := i % 28
    if t == 0 then [l, v] else [l, v, 0x11A7 + t]
  else if c == 0x0DDA then [0x0DD9, 0x0DCA]
  else if c == 0x0DDC then [0x0DD9, 0x0DCF]
  else if c == 0x0DDD then [0x0DD9, 0x0DCF, 0x0DCA]
  else if c == 0x0DDE then [0x0DD9, 0x0DDF]
  else if c == 0xE9 then [0x65, 0x0301]
  else if c == 0xC9 then [0x45, 0x0301]
  else [c]

def nfdDecompose (s : List Nat) : List Nat :=
  s.flatMap canonDecomp

/-- Canonical pairwise composition: algorithmic Hangul L+V and LV+T, the
Sinhala vowel-sign pairs, and the two Latin pairs. -/
def composePair (a b : Nat) : Option Nat :=
  if 0x1100 ≤ a ∧ a ≤ 0x1112 ∧ 0x1161 ≤ b ∧ b ≤ 0x1175 then
    some (0xAC00 + ((a - 0x1100) * 21 + (b - 0x1161)) * 28)
  else if 0xAC00 ≤ a ∧ a ≤ 0xD7A3 ∧ (a - 0xAC00) % 28 = 0 ∧
      0x11A8 ≤ b ∧ b ≤ 0x11C2 then
    some (a + (b - 0x11A7))
  else if a = 0x0DD9 ∧ b = 0x0DCA then some 0x0DDA
  else if a = 0x0DD9 ∧ b = 0x0DCF then some 0x0DDC
  else if a = 0x0DDC ∧ b = 0x0DCA then some 0x0DDD
  else if a = 0x0DD9 ∧ b = 0x0DDF then some 0x0DDE
  else if a = 0x65 ∧ b = 0x0301 then some 0xE9
  else if a = 0x45 ∧ b = 0x0301 then some 0xC9
  else none

/-- Canonical ordering: stable-sort every maximal run of non-starters by
combining class; starters are barriers. -/
def sortRun (run : List Nat) : List Nat :=
  List.insertionSort (fun a b => cccOf a ≤ cccOf b) run

def canonOrderAux (run : List Nat) : List Nat → List Nat
  | [] => sortRun run.reverse
  | c :: cs =>
    if cccOf c == 0 then
      sortRun run.reverse ++ c :: canonOrderAux [] cs
    else
      canonOrderAux (c :: run) cs

def canonOrder (s : List Nat) : List Nat :=
  canonOrderAux [] s

/-- Canonical composition pass: `st` is the last starter, `marks` the combining
marks already attached after it (in reverse), `lastcc` the class of the last
blocked mark (0 when none).  A character composes with the starter when it is
not blocked; otherwise it is appended or becomes the new starter. -/
def composeAux (st : Nat) (marks : List Nat) (lastcc : Nat) :
    List Nat → List Nat
  | [] => st :: marks.reverse
  | c :: cs =>
    let cc := cccOf c
    if cc == 0 then
      if lastcc == 0 then
        match composePair st c with
        | some n => composeAux n marks 0 cs
        | none => (st :: marks.reverse) ++ composeAux c [] 0 cs
      else
        (st :: marks.reverse) ++ composeAux c [] 0 cs
    else
      if lastcc < cc then
        match composePair st c with
        | some n => composeAux n marks lastcc cs
        | none => composeAux st (c :: marks) cc cs
      else
        composeAux st (c :: marks) cc cs

def canonCompose : List Nat → List Nat
  | [] => []
  | c :: cs =>
    if cccOf c == 0 then composeAux c [] 0 cs
    else c :: canonCompose cs

/-- `unicodedata.normalize("NFC", s)`. -/
def nfc (s : List Nat) : List Nat :=
  canonCompose (canonOrder (nfdDecompose s))

/-- Python `str.lower()` per code point (A-Z and the cased Latin-1 letters;
the scripts in scope are otherwise uncased). -/
def pyLowerCp (c : Nat) : Nat :=
  if 0x41 ≤ c && c ≤ 0x5A then c + 32
  else if (0xC0 ≤ c && c ≤ 0xD6) || (0xD8 ≤ c && c ≤ 0xDE) then c + 32
  else c

/-- Python `str.isspace()` / regex `\\s` whitespace. -/
def isPySpaceCp (c : Nat) : Bool :=
  (9 ≤ c && c ≤ 13) || c == 32 || (28 ≤ c && c ≤ 31) || c == 0x85 ||
    c == 0xA0 || c == 0x1680 || (0x2000 ≤ c && c ≤ 0x200A) || c == 0x2028 ||
    c == 0x2029 || c == 0x202F || c == 0x205F || c == 0x3000

/-- Python regex `\\w` (alphanumeric per `str.isalnum()` plus underscore) over
the blocks in scope: ASCII letters, digits and underscore, Latin-1 letters,
Sinhala letters and digits, Hangul jamo and syllables.  Combining marks are
not word characters. -/
def isWordCp (c : Nat) : Bool :=
  (0x30 ≤ c && c ≤ 0x39) || (0x41 ≤ c && c ≤ 0x5A) || (0x61 ≤ c && c ≤ 0x7A) ||
    c == 0x5F ||
    (0xC0 ≤ c && c ≤ 0xD6) || (0xD8 ≤ c && c ≤ 0xF6) || (0xF8 ≤ c && c ≤ 0xFF) ||
    (0x0D85 ≤ c && c ≤ 0x0D96) || (0x0D9A ≤ c && c ≤ 0x0DB1) ||
    (0x0DB3 ≤ c && c ≤ 0x0DBB) || c == 0x0DBD || (0x0DC0 ≤ c && c ≤ 0x0DC6) ||
    (0x0DE6 ≤ c && c ≤ 0x0DEF) ||
    (0x1100 ≤ c && c ≤ 0x11FF) || isHangulSyllable c

/-- Unicode general category Letter over the blocks in scope (the spec's
"letters"); the underscore is not a letter. -/
def isLetterCp (c : Nat) : Bool :=
  (0x41 ≤ c && c ≤ 0x5A) || (0x61 ≤ c && c ≤ 0x7A) ||
    (0xC0 ≤ c && c ≤ 0xD6) || (0xD8 ≤ c && c ≤ 0xF6) || (0xF8 ≤ c && c ≤ 0xFF) ||
    (0x0D85 ≤ c && c ≤ 0x0D96) || (0x0D9A ≤ c && c ≤ 0x0DB1) ||
    (0x0DB3 ≤ c && c ≤ 0x0DBB) || c == 0x0DBD || (0x0DC0 ≤ c && c ≤ 0x0DC6) ||
    (0x1100 ≤ c && c ≤ 0x11FF) || isHangulSyllable c

/-- Unicode general category decimal digit over the blocks in scope. -/
def isDigitCp (c : Nat) : Bool :=
  (0x30 ≤ c && c ≤ 0x39) || (0x0DE6 ≤ c && c ≤ 0x0DEF)

/-- `str.strip()`. -/
def pyStrip (s : List Nat) : List Nat :=
  ((s.dropWhile isPySpaceCp).reverse.dropWhile isPySpaceCp).reverse

/-- The character class kept by `re.sub(r"[^\\w\\u200C\\u200D]", "", title)`
(dedup.py line 24). -/
def keepTitleCp (c : Nat) : Bool :=
  isWordCp c || c == zwnj || c == zwj

/-- `normalize_title` (dedup.py lines 13-25): NFC, lowercase, strip every
code point outside the kept class, then `str.strip()`. -/
def normalizeTitle (s : List Nat) : List Nat :=
  pyStrip (((nfc s).map pyLowerCp).filter keepTitleCp)

/-! ### `html.unescape` and `normalize_text` -/

/-- The entity table: the relevant subset of `html.entities.html5`, with and
without the trailing semicolon where the html5 table has both. -/
def html5Entities : List (List Char × Nat) :=
  [("amp;".data, 38), ("amp".data, 38), ("lt;".data, 60), ("lt".data, 60),
   ("gt;".data, 62), ("gt".data, 62), ("quot;".data, 34), ("quot".data, 34),
   ("apos;".data, 39), ("nbsp;".data, 0xA0), ("nbsp".data, 0xA0),
   ("ldquo;".data, 0x201C), ("rdquo;".data, 0x201D), ("lsquo;".data, 0x2018),
   ("rsquo;".data, 0x2019), ("ndash;".data, 0x2013), ("mdash;".data, 0x2014),
   ("hellip;".data, 0x2026)]

def entityLookup (name : List Nat) : Option Nat :=
  (html5Entities.find? fun p => p.fst.map Char.toNat == name).map (·.snd)

/-- A character allowed inside a named charref by the regex
`[^\\t\\n\\f <&#;]{1,32}`. -/
def isEntityNameCp (c : Nat) : Bool :=
  !(c == 9 || c == 10 || c == 12 || c == 32 || c == 60 || c == 38 ||
    c == 35 || c == 59)

def hexVal (c : Nat) : Option Nat :=
  if 0x30 ≤ c && c ≤ 0x39 then some (c - 0x30)
  else if 0x41 ≤ c && c ≤ 0x46 then some (c - 0x41 + 10)
  else if 0x61 ≤ c && c ≤ 0x66 then some (c - 0x61 + 10)
  else none

def isDecCp (c : Nat) : Bool := 0x30 ≤ c && c ≤ 0x39

def isHexCp (c : Nat) : Bool := (hexVal c).isSome

/-- `chr(num)` guarded as `_replace_charref` does for numeric charrefs:
surrogates and out-of-range values become U+FFFD (the windows-1252 control
remapping table is not in scope). -/
def numericChar (n : Nat) : Nat :=
  if (0xD800 ≤ n && n ≤ 0xDFFF) || 0x10FFFF < n then 0xFFFD else n

/-- The longest-prefix fallback of `_replace_charref` for a name without a
recognised full match: try prefixes from the longest down to length 2. -/
def entityPrefixFallback (name : List Nat) : Nat → Option (List Nat)
  | 0 => none
  | x + 1 =>
    if x + 1 < 2 then none
    else
      match entityLookup (name.take (x + 1)) with
      | some v => some (v :: name.drop (x + 1))
      | none => entityPrefixFallback name x

/-- Parse one charref after an ampersand, returning the replacement and the
number of input code points consumed (the group without the ampersand). -/
def parseCharref (s : List Nat) : Option (List Nat × Nat) :=
  match s with
  | 35 :: rest =>
    -- numeric charref: &#digits;? or &#x hexdigits;?
    (match rest with
     | x :: rest2 =>
       if x == 0x78 || x == 0x58 then
         let digs := rest2.takeWhile isHexCp
         if digs.isEmpty then none
         else
           let n := digs.foldl (fun acc c => acc * 16 + (hexVal c).getD 0) 0
           let consumed := 2 + digs.length
           match rest2.drop digs.length with
           | 59 :: _ => some ([numericChar n], consumed + 1)
           | _ => some ([numericChar n], consumed)
       else
         let digs := rest.takeWhile isDecCp
         if digs.isEmpty then none
         else
           let n := digs.foldl (fun acc c => acc * 10 + (c - 0x30)) 0
           let consumed := 1 + digs.length
           match rest.drop digs.length with
           | 59 :: _ => some ([numericChar n], consumed + 1)
           | _ => some ([numericChar n], consumed)
     | [] => none)
  | _ =>
    let name := (s.takeWhile isEntityNameCp).take 32
    if name.isEmpty then none
    else
      let rest := s.drop name.length
      match rest with
      | 59 :: _ =>
        -- the regex takes the optional semicolon into the group
        let g := name ++ [59]
        match entityLookup g with
        | some v => some ([v], g.length)
        | none =>
          match entityPrefixFallback g (g.length - 1) with
          | some repl => some (repl, g.length)
          | none => some (38 :: g, g.length)
      | _ =>
        match entityLookup name with
        | some v => some ([v], name.length)
        | none =>
          match entityPrefixFallback name (name.length - 1) with
          | some repl => some (repl, name.length)
          | none => some (38 :: name, name.length)

/-- `html.unescape`, fuelled for structural recursion (each step consumes at
least one input code point, so fuel equal to the length suffices): replace
each charref, scanning left to right; the replacement text is not rescanned. -/
def htmlUnescapeFuel (bad : Nat) : List Nat → List Nat
  | [] => []
  | c :: cs =>
    match bad with
    | 0 => c :: cs
    | n + 1 =>
      if c == 38 then
        match parseCharref cs with
        | some (repl, k) => repl ++ htmlUnescapeFuel n (cs.drop k)
        | none => c :: htmlUnescapeFuel n cs
      else c :: htmlUnescapeFuel n cs

def htmlUnescape (s : List Nat) : List Nat :=
  htmlUnescapeFuel s.length s

/-- `str.replace` for a fixed non-empty needle, left to right, fuelled for
structural recursion. -/
def replaceAllFuel (bad good : List Nat) (fuel : Nat) : List Nat → List Nat
  | [] => []
  | c :: cs =>
    match fuel with
    | 0 => c :: cs
    | n + 1 =>
      if !bad.isEmpty && bad.isPrefixOf (c :: cs) then
        good ++ replaceAllFuel bad good n ((c :: cs).drop bad.length)
      else c :: replaceAllFuel bad good n cs

def replaceAll (bad good : List Nat) (s : List Nat) : List Nat :=
  replaceAllFuel bad good s.length s

/-- `_MOJIBAKE_REPLACEMENTS` (normalize.py lines 11-15), as code points. -/
def mojibakeTable : List (List Nat × Nat) :=
  [([0xC3, 0xA2, 0xE2, 0x201A, 0xC2, 0xAC, 0xE2, 0x201E, 0xA2], 0x2019),
   ([0xC3, 0xA2, 0xE2, 0x201A, 0xC2, 0xAC, 0xE2, 0x20AC, 0x201D], 0x2014),
   ([0xC3, 0xA2, 0xE2, 0x201A, 0xC2, 0xAC, 0xC2, 0xA6], 0x2026)]

def mojibakeFix (s : List Nat) : List Nat :=
  mojibakeTable.foldl (fun acc p => replaceAll p.fst [p.snd] acc) s

/-- `re.sub(r"\\s+", " ", text)`: collapse every maximal whitespace run to a
single ASCII space.  `prevWs` records whether the previous character belonged
to a run already replaced. -/
def collapseWsAux (prevWs : Bool) : List Nat → List Nat
  | [] => []
  | c :: cs =>
    if isPySpaceCp c then
      if prevWs then collapseWsAux true cs
      else 32 :: collapseWsAux true cs
    else c :: collapseWsAux false cs

def collapseWs (s : List Nat) : List Nat :=
  collapseWsAux false s

/-- `normalize_text` (normalize.py lines 18-40): NFC, HTML entity decode,
mojibake substitutions, whitespace collapse, strip. -/
def normalizeText (s : List Nat) : List Nat :=
  pyStrip (collapseWs (mojibakeFix (htmlUnescape (nfc s))))

/-- Every whitespace code point of the list is the ASCII space. -/
def wsAllSpace (l : List Nat) : Bool :=
  l.all fun c => !isPySpaceCp c || c == 32

/-- No two adjacent code points are both whitespace. -/
def noWsRun : List Nat → Bool
  | c1 :: c2 :: rest => !(isPySpaceCp c1 && isPySpaceCp c2) && noWsRun (c2 :: rest)
  | _ => true

/-- The Sinhala title "ශ්‍රී ලංකාව" of scenario S9, as code points (it contains
the ZWJ U+200D inside the conjunct). -/
def sinhalaTitle : List Nat :=
  [0x0DC1, 0x0DCA, 0x200D, 0x0DBB, 0x0DD3, 0x20, 0x0DBD, 0x0D82, 0x0D9A,
   0x0DCF, 0x0DC0]

/-- The double-encoded entity string `"&amp;amp;"` of the idempotence
counterexample, as code points. -/
def doubleAmp : List Nat := [38, 97, 109, 112, 59, 97, 109, 112, 59]

/-! ## Article scraper (scraper/article.py) and worker step (scheduler.py)

`scrape_article_page` is embedded over an abstract page behaviour `PageRun`:
what navigation, the title polls, and the in-page extraction routine yield.
Text destined for the date waterfall is `List Char`; text destined for the
normalization and dedup functions is `List Nat` code points.  The author,
byline-strip, and excerpt post-processing (article.py lines 313-332) only
feeds fields no claim touches and is not modelled. -/

/-- `ScrapeError` (models.py lines 25-28). -/
structure ScrapeError where
  errorType : String
  url : String
  deriving DecidableEq, Repr

/-- `ScrapedArticle` (models.py lines 31-38), restricted to the fields the
scheduler and the claims read. -/
structure ScrapedArticle where
  title : List Nat
  content : List Nat
  publishedAt : Option PyDateTime
  imageUrl : Option String
  finalUrl : Option String
  deriving DecidableEq, Repr

/-- `ScrapeResult = ScrapedArticle | ScrapeError | None` (models.py line 42). -/
inductive ScrapeResult where
  | article (a : ScrapedArticle)
  | scrapeError (e : ScrapeError)
  | pyNone
  deriving DecidableEq, Repr

/-- `RSSItem` (models.py lines 17-22), restricted likewise. -/
structure RSSItem where
  title : List Nat
  link : String
  pubDate : Option (List Char)
  imageUrl : Option String
  deriving DecidableEq, Repr

/-- One scrape's observable page behaviour: whether navigation and evaluation
complete without raising, the page title after the 2-second settle, the title
observed at each 1-second poll, and the fields the in-page extraction routine
returns. -/
structure PageRun where
  gotoOk : Bool
  settleTitle : List Char
  poll : Nat → List Char
  contentRaw : List Nat
  titleRaw : List Nat
  dateStr : List Char
  bodyText : List Char
  imageUrl : Option String
  finalUrl : Option String

/-- Substring test, as Python's `in` on strings. -/
def containsStr (pat : List Char) : List Char → Bool
  | [] => pat.isEmpty
  | c :: cs => pat.isPrefixOf (c :: cs) || containsStr pat cs

/-- `"just a moment" in title.lower()` (article.py lines 271, 276). -/
def hasInterstitial (t : List Char) : Bool :=
  containsStr ("just a moment".data) (t.map lowerCh)

/-- The poll loop of article.py lines 273-277: up to `budget` polls starting
at index `i`; true when some poll no longer shows the interstitial (the
`break`), false when the budget runs out (the `for`-`else`). -/
def interstitialGone (poll : Nat → List Char) : Nat → Nat → Bool
  | _, 0 => false
  | i, b + 1 =>
    if !hasInterstitial (poll i) then true
    else interstitialGone poll (i + 1) b

/-- `scrape_article_page` (article.py lines 233-357).  Failure paths — a
raised exception, an unresolved interstitial after the 10-poll budget, and
content under 100 characters — all return Python `None`; the function never
constructs a `ScrapeError`. -/
def scrapeArticlePage (p : PageRun) (url : String)
    (rssPubDate : Option (List Char)) (now : Int) : ScrapeResult :=
  if !p.gotoOk then .pyNone
  else if hasInterstitial p.settleTitle && !interstitialGone p.poll 0 10 then
    .pyNone
  else if p.contentRaw.isEmpty || p.contentRaw.length < 100 then .pyNone
  else
    .article
      { title := if p.titleRaw.isEmpty then [] else normalizeText p.titleRaw
        content := normalizeText p.contentRaw
        publishedAt :=
          extractDateWaterfall
            (if p.dateStr.isEmpty then none else some p.dateStr)
            (if p.dateStr.isEmpty then none else some p.dateStr)
            url.data p.bodyText rssPubDate now
        imageUrl := p.imageUrl
        finalUrl := p.finalUrl }

/-- `record_dead_link` (db.py lines 121-137): insert with defaults, or on url
conflict overwrite the error type and increment `retry_count`. -/
def recordDeadLink (table : List DeadLink) (sourceId : Nat) (url : String)
    (errorType : String) (now : Int) : List DeadLink :=
  if table.any (fun r => r.url == url) then
    table.map fun r =>
      if r.url == url then
        { r with errorType := errorType, retryCount := r.retryCount + 1 }
      else r
  else table ++ [⟨sourceId, url, errorType, now, 0⟩]

/-- `remove_dead_link` (db.py lines 140-142). -/
def removeDeadLink (table : List DeadLink) (url : String) : List DeadLink :=
  table.filter fun r => r.url != url

/-- An `articles` row, restricted to the fields the claims read. -/
structure ArticleRow where
  url : String
  sourceId : Nat
  title : List Nat
  content : List Nat
  publishedAt : Option PyDateTime
  deriving DecidableEq, Repr

/-- `insert_article` (db.py lines 145-171): INSERT ON CONFLICT (url) DO
NOTHING RETURNING id. -/
def insertArticle (articles : List ArticleRow) (row : ArticleRow) :
    Option Nat × List ArticleRow :=
  if articles.any (fun r => r.url == row.url) then (none, articles)
  else (some (articles.length + 1), articles ++ [row])

structure SourceCounts where
  inserted : Nat
  skippedNoDate : Nat
  skippedDuplicate : Nat
  errors : Nat
  deriving DecidableEq, Repr

/-- The state one `_scrape_and_insert` call reads and writes: the two tables,
the in-memory per-source title and url sets, and the counters. -/
structure WorkerStepState where
  articles : List ArticleRow
  deadLinks : List DeadLink
  existingTitles : List (List Nat)
  existingUrls : List String
  counts : SourceCounts
  deriving DecidableEq, Repr

/-- The title-duplicate test of scheduler.py line 335:
`norm_title and len(norm_title) > 10 and norm_title in source_titles`. -/
def titleDupCheck (existingTitles : List (List Nat)) (title : List Nat) : Bool :=
  let nt := normalizeTitle title
  !nt.isEmpty && decide (10 < nt.length) && existingTitles.contains nt

/-- `IntelligentScheduler._scrape_and_insert` (scheduler.py lines 275-349)
after the scrape call, as a state transformation on the scrape result: a
`ScrapeError` is recorded as a dead link; a `None` or too-short result only
counts an error; otherwise any dead-link row for the url is deleted first,
then the no-date skip, the title-duplicate skip under the db lock, and the
conflict-guarded insert follow. -/
def scrapeAndInsert (st : WorkerStepState) (sourceId : Nat) (item : RSSItem)
    (scraped : ScrapeResult) (now : Int) : WorkerStepState :=
  match scraped with
  | .scrapeError e =>
    { st with
      deadLinks := recordDeadLink st.deadLinks sourceId e.url e.errorType now
      counts := { st.counts with errors := st.counts.errors + 1 } }
  | .pyNone =>
    { st with counts := { st.counts with errors := st.counts.errors + 1 } }
  | .article a =>
    if a.content.isEmpty || a.content.length < 100 then
      { st with counts := { st.counts with errors := st.counts.errors + 1 } }
    else
      let dead2 := removeDeadLink st.deadLinks item.link
      if a.publishedAt.isNone then
        { st with
          deadLinks := dead2
          counts := { st.counts with
            skippedNoDate := st.counts.skippedNoDate + 1 } }
      else
        if titleDupCheck st.existingTitles item.title then
          { st with
            deadLinks := dead2
            counts := { st.counts with
              skippedDuplicate := st.counts.skippedDuplicate + 1 } }
        else
          let articleTitle :=
            if a.title.isEmpty then normalizeText item.title else a.title
          let row : ArticleRow :=
            ⟨item.link, sourceId, articleTitle, a.content, a.publishedAt⟩
          match insertArticle st.articles row with
          | (some _, articles2) =>
            { st with
              articles := articles2
              deadLinks := dead2
              existingTitles := st.existingTitles ++ [normalizeTitle item.title]
              existingUrls := st.existingUrls ++ [item.link]
              counts := { st.counts with
                inserted := st.counts.inserted + 1 } }
          | (none, _) =>
            { st with
              deadLinks := dead2
              counts := { st.counts with
                skippedDuplicate := st.counts.skippedDuplicate + 1 } }

/-- The waterfall as the specification words it: the first valid timestamp
from, in order, the strict meta parse, the selector-text regex extraction, the
url segment, the regex extraction from the first 3000 characters of the body,
and the feed-hint parse. -/
def extractDateWaterfallSpec (metaDate selectorDate : Option (List Char))
    (url bodyText : List Char) (rssPubDate : Option (List Char)) (now : Int) :
    Option PyDateTime :=
  firstSomeDT
    [metaDate.bind (safeParse now),
     selectorDate.bind (extractDateFromText now),
     extractDateFromUrl now url,
     extractDateFromText now (bodyText.take 3000),
     rssPubDate.bind (safeParse now)]

end NewsAgg

namespace NewsAgg

/-- C3: for every source and queried url set, membership in the batch dead-link
filter is exactly the spec's union: a recorded row for that source and url with
retry_count ≥ 3, or retry_count = k ∈ {0,1,2} and now < first_failed_at +
backoff k with backoff = [7d, 14d, 30d]. -/
theorem getDeadUrls_suppressed_iff (table : List DeadLink) (sourceId : Nat)
    (urls : List String) (now : Int) (u : String) :
    u ∈ getDeadUrls table sourceId urls now ↔
      ∃ r ∈ table, r.url = u ∧ r.sourceId = sourceId ∧ u ∈ urls ∧
        suppressedSpec now r := by
  unfold getDeadUrls
  by_cases hurls : urls.isEmpty
  · rw [if_pos hurls]
    simp only [List.not_mem_nil, false_iff]
    rintro ⟨r, -, -, -, hmem, -⟩
    rw [List.isEmpty_iff] at hurls
    simp [hurls] at hmem
  · rw [if_neg hurls]
    simp only [List.mem_map, List.mem_filter]
    constructor
    · rintro ⟨r, ⟨hr, hcond⟩, rfl⟩
      simp only [Bool.and_eq_true, beq_iff_eq] at hcond
      obtain ⟨⟨hsid, hurl⟩, hclause⟩ := hcond
      refine ⟨r, hr, rfl, hsid, by simpa using hurl, ?_⟩
      unfold deadLinkDueClause at hclause
      unfold suppressedSpec backoffDays
      simp only [Bool.or_eq_true, Bool.and_eq_true, beq_iff_eq,
        decide_eq_true_eq] at hclause
      rcases hclause with ((h3 | ⟨h0, hlt⟩) | ⟨h1, hlt⟩) | ⟨h2, hlt⟩
      · exact Or.inl h3
      · exact Or.inr ⟨by omega, by rw [h0]; simpa using by linarith⟩
      · exact Or.inr ⟨by omega, by rw [h1]; simpa using by linarith⟩
      · exact Or.inr ⟨by omega, by rw [h2]; simpa using by linarith⟩
    · rintro ⟨r, hr, rfl, hsid, hin, hspec⟩
      refine ⟨r, ⟨hr, ?_⟩, rfl⟩
      simp only [Bool.and_eq_true, beq_iff_eq]
      refine ⟨⟨hsid, by simpa using hin⟩, ?_⟩
      unfold deadLinkDueClause
      unfold suppressedSpec backoffDays at hspec
      simp only [Bool.or_eq_true, Bool.and_eq_true, beq_iff_eq,
        decide_eq_true_eq]
      rcases hspec with h3 | ⟨hlt3, hlt⟩
      · exact Or.inl (Or.inl (Or.inl h3))
      · interval_cases h : r.retryCount <;> simp only [List.getD] at hlt <;>
          norm_num at hlt
        · exact Or.inl (Or.inl (Or.inr ⟨rfl, by linarith⟩))
        · exact Or.inl (Or.inr ⟨rfl, by linarith⟩)
        · exact Or.inr ⟨rfl, by linarith⟩

/-- C1: the scheduler's pick step (scheduler.py line 135) calls
`time_until_ready()` on the source's rate limiter, but the `RateLimiter` class
(utils/rate_limit.py) defines no such attribute, so scanning any source with a
non-empty queue and free concurrency raises AttributeError instead of
returning a delay. -/
theorem pickNext_timeUntilReady_attributeError :
    pickNextScanSource false 0 1 =
      .attributeError "RateLimiter object has no attribute time_until_ready"
      ∧ rateLimiterAttrs.contains "time_until_ready" = false := by
  constructor <;> rfl

theorem opt_orElse_split {α : Type} {a : Option α} {b : Unit → Option α}
    {t : α} (h : a.orElse b = some t) : a = some t ∨ (a = none ∧ b () = some t) := by
  cases a
  · exact Or.inr ⟨rfl, h⟩
  · exact Or.inl h

theorem isValidDate_bounds {now : Int} {d : PyDateTime}
    (h : isValidDate now d = true) :
    2006 ≤ d.year ∧ instantSec d ≤ now + 2 * 86400 := by
  simpa [isValidDate] using h

theorem naiveSec_tz_irrel (d : PyDateTime) (o : Option Int) :
    naiveSec { d with tz := o } = naiveSec d := rfl

theorem instantSec_stampSL {d : PyDateTime} (h : d.tz = none) :
    instantSec (stampSL d) = instantSec d := by
  cases d with
  | mk y mo da ho mi se tz =>
    simp only [PyDateTime.tz] at h
    subst h
    rfl

theorem instantSec_withDefaultTZ (d : PyDateTime) :
    instantSec (withDefaultTZ d) = instantSec d := by
  cases d with
  | mk y mo da ho mi se tz =>
    cases tz <;> rfl

theorem guardValid_eq_some {now : Int} {od : Option PyDateTime} {t : PyDateTime}
    (h : guardValid now od = some t) :
    od = some t ∧ isValidDate now t = true := by
  cases od with
  | none => exact absurd h (by simp [guardValid])
  | some d =>
    simp only [guardValid] at h
    by_cases hv : isValidDate now d = true
    · rw [if_pos hv] at h
      cases h
      exact ⟨rfl, hv⟩
    · rw [if_neg hv] at h
      cases h

theorem strptimeMDYTime_tz_none {c : MDYCaps} {d : PyDateTime}
    (h : strptimeMDYTime c = some d) : d.tz = none := by
  unfold strptimeMDYTime at h
  repeat' split at h
  all_goals cases h <;> rfl

theorem strptimeMDY_tz_none {c : MDYCaps} {d : PyDateTime}
    (h : strptimeMDY c = some d) : d.tz = none := by
  unfold strptimeMDY at h
  split at h
  · cases h; rfl
  · cases h

theorem firstValidFmt_bounds {now : Int} {l : List (Option PyDateTime)}
    {t : PyDateTime} (h : firstValidFmt now l = some t) :
    2006 ≤ t.year ∧ instantSec t ≤ now + 2 * 86400 := by
  induction l with
  | nil => cases h
  | cons od rest ih =>
    unfold firstValidFmt at h
    cases od with
    | none => exact ih h
    | some d =>
      dsimp only at h
      by_cases hv : isValidDate now d = true
      · rw [if_pos hv] at h
        cases h
        have hb := isValidDate_bounds hv
        exact ⟨hb.1, by rw [instantSec_withDefaultTZ]; exact hb.2⟩
      · rw [if_neg hv] at h
        exact ih h

theorem safeParse_bounds {now : Int} {s : List Char} {t : PyDateTime}
    (h : safeParse now s = some t) :
    2006 ≤ t.year ∧ instantSec t ≤ now + 2 * 86400 := by
  unfold safeParse at h
  rcases opt_orElse_split h with h | ⟨-, h⟩
  · exact firstValidFmt_bounds h
  · obtain ⟨-, hv⟩ := guardValid_eq_some h
    exact isValidDate_bounds hv

theorem stamped_stage_bounds {now : Int} {x : Option PyDateTime}
    {t : PyDateTime} (h : (guardValid now x).map stampSL = some t)
    (htz : ∀ d, x = some d → d.tz = none) :
    2006 ≤ t.year ∧ instantSec t ≤ now + 2 * 86400 := by
  rcases Option.map_eq_some'.mp h with ⟨d, hg, rfl⟩
  obtain ⟨hx, hv⟩ := guardValid_eq_some hg
  have hb := isValidDate_bounds hv
  exact ⟨hb.1, by rw [instantSec_stampSL (htz d hx)]; exact hb.2⟩

theorem extractDateFromText_bounds {now : Int} {s : List Char} {t : PyDateTime}
    (h : extractDateFromText now s = some t) :
    2006 ≤ t.year ∧ instantSec t ≤ now + 2 * 86400 := by
  unfold extractDateFromText at h
  rcases opt_orElse_split h with h | ⟨-, h5⟩
  · rcases opt_orElse_split h with h | ⟨-, h4⟩
    · rcases opt_orElse_split h with h | ⟨-, h4a⟩
      · rcases opt_orElse_split h with h | ⟨-, h3⟩
        · rcases opt_orElse_split h with h1 | ⟨-, h2⟩
          · refine stamped_stage_bounds h1 fun d hx => ?_
            rcases Option.bind_eq_some.mp hx with ⟨caps, -, hs⟩
            exact strptimeMDYTime_tz_none hs
          · refine stamped_stage_bounds h2 fun d hx => ?_
            rcases Option.bind_eq_some.mp hx with ⟨caps, -, hs⟩
            exact strptimeMDY_tz_none hs
        · obtain ⟨-, hv⟩ := guardValid_eq_some h3
          exact isValidDate_bounds hv
      · refine stamped_stage_bounds h4a fun d hx => ?_
        rcases Option.bind_eq_some.mp hx with ⟨caps, -, hs⟩
        exact strptimeMDYTime_tz_none hs
    · refine stamped_stage_bounds h4 fun d hx => ?_
      rcases Option.bind_eq_some.mp hx with ⟨caps, -, hs⟩
      exact strptimeMDY_tz_none hs
  · obtain ⟨-, hv⟩ := guardValid_eq_some h5
    exact isValidDate_bounds hv

theorem extractDateFromUrl_bounds {now : Int} {u : List Char} {t : PyDateTime}
    (h : extractDateFromUrl now u = some t) :
    2006 ≤ t.year ∧ instantSec t ≤ now + 2 * 86400 := by
  unfold extractDateFromUrl at h
  obtain ⟨-, hv⟩ := guardValid_eq_some h
  exact isValidDate_bounds hv

/-- C4: every timestamp the waterfall returns has year at least 2006 and an
instant no later than now plus the two-day clock-skew tolerance; out-of-range
parses are never returned (they fall through inside each tier). -/
theorem dateWaterfall_validity (metaDate selectorDate : Option (List Char))
    (url bodyText : List Char) (rssPubDate : Option (List Char)) (now : Int)
    (t : PyDateTime)
    (h : extractDateWaterfall metaDate selectorDate url bodyText rssPubDate now
      = some t) :
    2006 ≤ t.year ∧ instantSec t ≤ now + 2 * 86400 := by
  unfold extractDateWaterfall at h
  rcases opt_orElse_split h with h | ⟨-, h5⟩
  · rcases opt_orElse_split h with h | ⟨-, h4⟩
    · rcases opt_orElse_split h with h | ⟨-, h3⟩
      · rcases opt_orElse_split h with h1 | ⟨-, h2⟩
        · -- tier 1: meta
          rcases metaDate with _ | m
          · cases h1
          · dsimp only at h1
            by_cases he : m.isEmpty = true
            · rw [if_pos he] at h1; cases h1
            · rw [if_neg he] at h1; exact safeParse_bounds h1
        · -- tier 2: selector text
          rcases selectorDate with _ | sd
          · cases h2
          · dsimp only at h2
            by_cases he : sd.isEmpty = true
            · rw [if_pos he] at h2; cases h2
            · rw [if_neg he] at h2; exact extractDateFromText_bounds h2
      · -- tier 3: url
        exact extractDateFromUrl_bounds h3
    · -- tier 4: body text
      by_cases he : bodyText.isEmpty = true
      · rw [if_pos he] at h4; cases h4
      · rw [if_neg he] at h4; exact extractDateFromText_bounds h4
  · -- tier 5: feed hint
    rcases rssPubDate with _ | r
    · cases h5
    · dsimp only at h5
      by_cases he : r.isEmpty = true
      · rw [if_pos he] at h5; cases h5
      · rw [if_neg he] at h5; exact safeParse_bounds h5

/-- Closed witness for the waterfall range theorem at a concrete input. -/
theorem dateWaterfall_validity_witness :
    2006 ≤ (2026 : Nat) ∧
      instantSec ⟨2026, 2, 4, 0, 0, 0, some 19800⟩ ≤ 1791763200 + 2 * 86400 :=
  dateWaterfall_validity (some ("2026-02-04".data)) none [] [] none
    1791763200 ⟨2026, 2, 4, 0, 0, 0, some 19800⟩ (by decide)

theorem orElse_chain5 {α : Type} (a b c d e : Option α) :
    ((((a.orElse fun _ => b).orElse fun _ => c).orElse fun _ => d).orElse
        fun _ => e) =
      a.orElse fun _ => b.orElse fun _ => c.orElse fun _ => d.orElse fun _ =>
        e.orElse fun _ => none := by
  cases a <;> cases b <;> cases c <;> cases d <;> cases e <;> rfl

theorem waterfallEqSpecAux (metaDate selectorDate : Option (List Char))
    (url bodyText : List Char) (rssPubDate : Option (List Char)) (now : Int) :
    extractDateWaterfall metaDate selectorDate url bodyText rssPubDate now =
      extractDateWaterfallSpec metaDate selectorDate url bodyText rssPubDate
        now := by
  have h1 : (match metaDate with
      | some m => if m.isEmpty then none else safeParse now m
      | none => none) = metaDate.bind (safeParse now) := by
    rcases metaDate with _ | (_ | ⟨c, cs⟩) <;> rfl
  have h2 : (match selectorDate with
      | some sd => if sd.isEmpty then none else extractDateFromText now sd
      | none => none) = selectorDate.bind (extractDateFromText now) := by
    rcases selectorDate with _ | (_ | ⟨c, cs⟩) <;> rfl
  have h4 : (if bodyText.isEmpty then none
      else extractDateFromText now (bodyText.take 3000)) =
      extractDateFromText now (bodyText.take 3000) := by
    rcases bodyText with _ | ⟨c, cs⟩ <;> rfl
  have h5 : (match rssPubDate with
      | some r => if r.isEmpty then none else safeParse now r
      | none => none) = rssPubDate.bind (safeParse now) := by
    rcases rssPubDate with _ | (_ | ⟨c, cs⟩) <;> rfl
  unfold extractDateWaterfall extractDateWaterfallSpec firstSomeDT
  rw [orElse_chain5, h1, h2, h4, h5]
  rfl

/-- C5: the waterfall equals the spec's ordered first-valid cascade (meta
strict parse, selector-text regex, url segment, body-prefix regex, feed-hint
parse), and on the concrete scenario — meta absent, selector text
"February 4, 2026 02:39 pm", a url with no date, empty body, no feed hint —
it returns 2026-02-04T14:39:00+05:30 whenever that instant is within the
validity window of the current time. -/
theorem dateWaterfall_order_and_example :
    (∀ (metaDate selectorDate : Option (List Char)) (url bodyText : List Char)
        (rssPubDate : Option (List Char)) (now : Int),
      extractDateWaterfall metaDate selectorDate url bodyText rssPubDate now =
        extractDateWaterfallSpec metaDate selectorDate url bodyText rssPubDate
          now) ∧
    (∀ now : Int,
      instantSec ⟨2026, 2, 4, 14, 39, 0, none⟩ ≤ now + 2 * 86400 →
      extractDateWaterfall none (some ("February 4, 2026 02:39 pm".data))
          ("https://example.com/news/12345".data) [] none now =
        some ⟨2026, 2, 4, 14, 39, 0, some 19800⟩) := by
  constructor
  · exact waterfallEqSpecAux
  · intro now h
    have e2 : searchPat matchPatLongAt ("February 4, 2026 02:39 pm".data) =
        some ⟨2, 4, 2026, some ⟨2, 39, 1, some true⟩⟩ := by decide
    have e3 : strptimeMDYTime ⟨2, 4, 2026, some ⟨2, 39, 1, some true⟩⟩ =
        some ⟨2026, 2, 4, 14, 39, 0, none⟩ := by decide
    have hv : isValidDate now ⟨2026, 2, 4, 14, 39, 0, none⟩ = true := by
      simp only [isValidDate, Bool.and_eq_true, decide_eq_true_eq]
      exact ⟨by norm_num, h⟩
    have etext : extractDateFromText now ("February 4, 2026 02:39 pm".data) =
        some (stampSL ⟨2026, 2, 4, 14, 39, 0, none⟩) := by
      unfold extractDateFromText
      rw [e2]
      simp only [Option.some_bind]
      rw [e3]
      simp only [guardValid, hv, if_true, Option.map_some']
      rfl
    show ((((extractDateFromText now ("February 4, 2026 02:39 pm".data)).orElse
        fun _ => extractDateFromUrl now
          ("https://example.com/news/12345".data)).orElse
        fun _ => (none : Option PyDateTime)).orElse
        fun _ => (none : Option PyDateTime)) =
      some ⟨2026, 2, 4, 14, 39, 0, some 19800⟩
    rw [etext]
    rfl

/-- Closed witness for the waterfall order-and-example theorem. -/
theorem dateWaterfall_order_witness :
    extractDateWaterfall none (some ("February 4, 2026 02:39 pm".data))
        ("https://example.com/news/12345".data) [] none 1791763200 =
      some ⟨2026, 2, 4, 14, 39, 0, some 19800⟩ :=
  dateWaterfall_order_and_example.2 1791763200 (by decide)

theorem pyStrip_subset {l : List Nat} {c : Nat} (h : c ∈ pyStrip l) : c ∈ l := by
  unfold pyStrip at h
  rw [List.mem_reverse] at h
  have h2 := (List.dropWhile_sublist (p := isPySpaceCp)
    (l := (l.dropWhile isPySpaceCp).reverse)).subset h
  rw [List.mem_reverse] at h2
  exact (List.dropWhile_sublist (p := isPySpaceCp) (l := l)).subset h2

/-- C6 counterexample: the underscore survives `normalize_title` unchanged,
yet it is neither a letter, nor a digit, nor ZWNJ, nor ZWJ — refuting the
claim that the output contains only those. -/
theorem normalizeTitle_underscore_counterexample :
    normalizeTitle [0x5F] = [0x5F] ∧ isLetterCp 0x5F = false ∧
      isDigitCp 0x5F = false ∧ (0x5F : Nat) ≠ zwnj ∧ (0x5F : Nat) ≠ zwj := by
  refine ⟨?_, rfl, rfl, by decide, by decide⟩
  decide

/-- C6 amended: every code point of a `normalize_title` output is a word
character in the sense of the regex `\\w` — a letter, a digit, or the
underscore — or ZWNJ or ZWJ. -/
theorem normalizeTitle_output_class (s : List Nat) (c : Nat)
    (h : c ∈ normalizeTitle s) :
    isWordCp c = true ∨ c = zwnj ∨ c = zwj := by
  unfold normalizeTitle at h
  have h2 := pyStrip_subset h
  have h3 := List.of_mem_filter h2
  unfold keepTitleCp at h3
  simp only [Bool.or_eq_true, beq_iff_eq] at h3
  tauto

/-- Closed witness for the output-class theorem. -/
theorem normalizeTitle_output_class_witness :
    isWordCp 97 = true ∨ (97 : Nat) = zwnj ∨ (97 : Nat) = zwj :=
  normalizeTitle_output_class [97] 97 (by decide)

theorem noWsRun_tail {c : Nat} {l : List Nat} (h : noWsRun (c :: l) = true) :
    noWsRun l = true := by
  cases l with
  | nil => rfl
  | cons d ds =>
    unfold noWsRun at h
    simp only [Bool.and_eq_true] at h
    exact h.2

theorem noWsRun_dropWhile (p : Nat → Bool) (l : List Nat)
    (h : noWsRun l = true) : noWsRun (l.dropWhile p) = true := by
  induction l with
  | nil => exact h
  | cons c cs ih =>
    rw [List.dropWhile_cons]
    by_cases hp : p c = true
    · rw [if_pos hp]
      exact ih (noWsRun_tail h)
    · rw [if_neg hp]
      exact h

theorem noWsRun_append_singleton {l : List Nat} {a : Nat}
    (h : noWsRun l = true)
    (hl : ∀ b, l.getLast? = some b → (isPySpaceCp b && isPySpaceCp a) = false) :
    noWsRun (l ++ [a]) = true := by
  induction l with
  | nil => rfl
  | cons c cs ih =>
    cases cs with
    | nil =>
      have := hl c rfl
      simp only [List.cons_append, List.nil_append, noWsRun, this,
        Bool.not_false, Bool.true_and]
    | cons d ds =>
      have h1 : (isPySpaceCp c && isPySpaceCp d) = false := by
        unfold noWsRun at h
        simp only [Bool.and_eq_true] at h
        have h1 := h.1
        simp only [Bool.not_and, Bool.or_eq_true, Bool.not_eq_true'] at h1
        rcases h1 with h1 | h1 <;> simp [h1]
      have h2 := ih (noWsRun_tail h) (fun b hb => hl b (by
        rw [List.getLast?_cons_cons]; exact hb))
      simpa [noWsRun, h1] using h2

theorem noWsRun_reverse {l : List Nat} (h : noWsRun l = true) :
    noWsRun l.reverse = true := by
  induction l with
  | nil => rfl
  | cons c cs ih =>
    rw [List.reverse_cons]
    refine noWsRun_append_singleton (ih (noWsRun_tail h)) ?_
    intro b hb
    rw [List.getLast?_reverse] at hb
    cases cs with
    | nil => cases hb
    | cons d ds =>
      have hbd : d = b := by
        simpa using hb
      subst hbd
      unfold noWsRun at h
      simp only [Bool.and_eq_true] at h
      have h1 := h.1
      simp only [Bool.not_and, Bool.or_eq_true, Bool.not_eq_true'] at h1
      rw [Bool.and_comm]
      rcases h1 with h1 | h1 <;> simp [h1]

theorem wsAllSpace_of_subset {l l' : List Nat} (hsub : ∀ c ∈ l', c ∈ l)
    (h : wsAllSpace l = true) : wsAllSpace l' = true := by
  unfold wsAllSpace at *
  rw [List.all_eq_true] at *
  exact fun c hc => h c (hsub c hc)

/-- Head of a `collapseWsAux true` result is never whitespace. -/
theorem collapseWsAux_true_head :
    ∀ l : List Nat, (collapseWsAux true l).head? = none ∨
      ∃ c cs, collapseWsAux true l = c :: cs ∧ isPySpaceCp c = false := by
  intro l
  induction l with
  | nil => exact Or.inl rfl
  | cons c cs ih =>
    unfold collapseWsAux
    by_cases hc : isPySpaceCp c = true
    · rw [if_pos hc]
      exact ih
    · rw [if_neg hc]
      exact Or.inr ⟨c, _, rfl, by simpa using hc⟩

theorem collapseWsAux_ok (l : List Nat) :
    ∀ b, wsAllSpace (collapseWsAux b l) = true ∧
      noWsRun (collapseWsAux b l) = true := by
  induction l with
  | nil => intro b; exact ⟨rfl, rfl⟩
  | cons c cs ih =>
    intro b
    unfold collapseWsAux
    by_cases hc : isPySpaceCp c = true
    · rw [if_pos hc]
      by_cases hb : b = true
      · rw [if_pos hb]
        exact ih true
      · rw [if_neg hb]
        obtain ⟨iha, ihn⟩ := ih true
        refine ⟨?_, ?_⟩
        · unfold wsAllSpace at iha ⊢
          simpa using iha
        · rcases collapseWsAux_true_head cs with hh | ⟨d, ds, hd, hdw⟩
          · rcases he : collapseWsAux true cs with _ | ⟨x, xs⟩
            · rfl
            · rw [he] at hh; cases hh
          · rw [hd]
            rw [hd] at ihn
            simpa [noWsRun, hdw] using ihn
    · rw [if_neg hc]
      obtain ⟨iha, ihn⟩ := ih false
      refine ⟨?_, ?_⟩
      · unfold wsAllSpace at iha ⊢
        simp only [List.all_cons, iha, Bool.and_true]
        simp [hc]
      · rcases he : collapseWsAux false cs with _ | ⟨x, xs⟩
        · rfl
        · rw [he] at ihn
          simp only [noWsRun, ihn, Bool.and_true]
          simp [hc]

/-- C7 amended: `normalize_text` output has every whitespace collapsed — all
whitespace is the single ASCII space and no two adjacent characters are both
whitespace — but the function is not idempotent: HTML entity decoding is
single-pass, so the doubly-encoded `"&amp;amp;"` decodes further on a second
application. -/
theorem normalizeText_collapses_ws_not_idempotent :
    (∀ s : List Nat, wsAllSpace (normalizeText s) = true ∧
      noWsRun (normalizeText s) = true) ∧
    normalizeText (normalizeText doubleAmp) ≠ normalizeText doubleAmp := by
  constructor
  · intro s
    unfold normalizeText
    obtain ⟨ha, hn⟩ := collapseWsAux_ok (mojibakeFix (htmlUnescape (nfc s))) false
    constructor
    · exact wsAllSpace_of_subset (fun c hc => pyStrip_subset hc) ha
    · unfold pyStrip
      exact noWsRun_reverse (noWsRun_dropWhile _ _
        (noWsRun_reverse (noWsRun_dropWhile _ _ hn)))
  · decide

/-- C7 counterexample: `normalize_text` is not idempotent — on `"&amp;amp;"`
one application yields `"&amp;"`, a second yields `"&"`. -/
theorem normalizeText_not_idempotent :
    normalizeText doubleAmp = [38, 97, 109, 112, 59] ∧
      normalizeText (normalizeText doubleAmp) = [38] ∧
      normalizeText (normalizeText doubleAmp) ≠ normalizeText doubleAmp := by
  refine ⟨by decide, by decide, by decide⟩

theorem canonDecomp_count {j : Nat} (hj : j = zwj ∨ j = zwnj) (x : Nat) :
    (canonDecomp x).count j = (if x = j then 1 else 0) := by
  have hjn : j = 8205 ∨ j = 8204 := by
    rcases hj with rfl | rfl
    · exact Or.inl rfl
    · exact Or.inr rfl
  unfold canonDecomp
  by_cases hh : isHangulSyllable x = true
  · rw [if_pos hh]
    simp only [isHangulSyllable, Bool.and_eq_true, decide_eq_true_eq] at hh
    have hxj : ¬(x = j) := by rcases hjn with rfl | rfl <;> omega
    rw [if_neg hxj]
    by_cases ht : ((x - 0xAC00) % 28 == 0) = true
    · rw [if_pos ht, List.count_eq_zero]
      intro hm
      simp only [List.mem_cons, List.not_mem_nil, or_false] at hm
      rcases hjn with rfl | rfl <;> rcases hm with hm | hm <;> omega
    · rw [if_neg ht, List.count_eq_zero]
      intro hm
      simp only [List.mem_cons, List.not_mem_nil, or_false] at hm
      rcases hjn with rfl | rfl <;> rcases hm with hm | hm | hm <;> omega
  · rw [if_neg hh]
    by_cases h1 : (x == 0x0DDA) = true
    · rw [if_pos h1]
      have hx : x = 0x0DDA := by simpa using h1
      subst hx
      rcases hjn with rfl | rfl <;> decide
    · rw [if_neg h1]
      by_cases h2 : (x == 0x0DDC) = true
      · rw [if_pos h2]
        have hx : x = 0x0DDC := by simpa using h2
        subst hx
        rcases hjn with rfl | rfl <;> decide
      · rw [if_neg h2]
        by_cases h3 : (x == 0x0DDD) = true
        · rw [if_pos h3]
          have hx : x = 0x0DDD := by simpa using h3
          subst hx
          rcases hjn with rfl | rfl <;> decide
        · rw [if_neg h3]
          by_cases h4 : (x == 0x0DDE) = true
          · rw [if_pos h4]
            have hx : x = 0x0DDE := by simpa using h4
            subst hx
            rcases hjn with rfl | rfl <;> decide
          · rw [if_neg h4]
            by_cases h5 : (x == 0xE9) = true
            · rw [if_pos h5]
              have hx : x = 0xE9 := by simpa using h5
              subst hx
              rcases hjn with rfl | rfl <;> decide
            · rw [if_neg h5]
              by_cases h6 : (x == 0xC9) = true
              · rw [if_pos h6]
                have hx : x = 0xC9 := by simpa using h6
                subst hx
                rcases hjn with rfl | rfl <;> decide
              · rw [if_neg h6, List.count_singleton]
                by_cases hx : x = j <;> simp [hx]

theorem nfdDecompose_count {j : Nat} (hj : j = zwj ∨ j = zwnj) (s : List Nat) :
    (nfdDecompose s).count j = s.count j := by
  induction s with
  | nil => rfl
  | cons c cs ih =>
    unfold nfdDecompose at ih ⊢
    rw [List.flatMap_cons, List.count_append, ih, canonDecomp_count hj c,
      List.count_cons]
    by_cases hc : c = j
    all_goals simp [hc]
    all_goals omega

theorem sortRun_count (j : Nat) (l : List Nat) :
    (sortRun l).count j = l.count j :=
  (List.perm_insertionSort _ l).count_eq j

theorem canonOrderAux_count (j : Nat) (l : List Nat) :
    ∀ run, (canonOrderAux run l).count j = run.count j + l.count j := by
  induction l with
  | nil =>
    intro run
    unfold canonOrderAux
    rw [sortRun_count, List.count_reverse]
    simp
  | cons c cs ih =>
    intro run
    unfold canonOrderAux
    by_cases hc : (cccOf c == 0) = true
    · rw [if_pos hc]
      simp only [List.count_append, sortRun_count, List.count_reverse,
        List.count_cons, ih, List.count_nil]
      omega
    · rw [if_neg hc, ih (c :: run)]
      simp only [List.count_cons]
      omega

theorem canonOrder_count (j : Nat) (s : List Nat) :
    (canonOrder s).count j = s.count j := by
  unfold canonOrder
  rw [canonOrderAux_count]
  simp

theorem composePair_ne {j a b n : Nat} (hj : j = zwj ∨ j = zwnj)
    (h : composePair a b = some n) : a ≠ j ∧ b ≠ j ∧ n ≠ j := by
  have hjn : j = 8205 ∨ j = 8204 := by
    rcases hj with rfl | rfl
    · exact Or.inl rfl
    · exact Or.inr rfl
  clear hj
  unfold composePair at h
  split_ifs at h with h1 h2 h3 h4 h5 h6 h7 h8
  all_goals injection h with hn
  all_goals subst hn
  all_goals refine ⟨?_, ?_, ?_⟩ <;> rcases hjn with rfl | rfl <;> omega

theorem composeAux_count {j : Nat} (hj : j = zwj ∨ j = zwnj) (l : List Nat) :
    ∀ st marks lastcc,
      (composeAux st marks lastcc l).count j =
        (st :: marks).count j + l.count j := by
  induction l with
  | nil =>
    intro st marks lastcc
    unfold composeAux
    simp only [List.count_cons, List.count_reverse, List.count_nil]
    omega
  | cons c cs ih =>
    intro st marks lastcc
    unfold composeAux
    by_cases hcc : (cccOf c == 0) = true
    · rw [if_pos hcc]
      by_cases hl : (lastcc == 0) = true
      · rw [if_pos hl]
        rcases hp : composePair st c with _ | n
        · simp only [List.count_append, ih c [] 0, List.count_cons,
            List.count_reverse, List.count_nil]
          omega
        · obtain ⟨hst, hc2, hn⟩ := composePair_ne hj hp
          rw [ih n marks 0, List.count_cons_of_ne (Ne.symm hn),
            List.count_cons_of_ne (Ne.symm hst),
            List.count_cons_of_ne (Ne.symm hc2)]
      · rw [if_neg hl]
        simp only [List.count_append, ih c [] 0, List.count_cons,
          List.count_reverse, List.count_nil]
        omega
    · rw [if_neg hcc]
      by_cases hlt : lastcc < cccOf c
      · rw [if_pos hlt]
        rcases hp : composePair st c with _ | n
        · rw [ih st (c :: marks) (cccOf c)]
          simp only [List.count_cons]
          omega
        · obtain ⟨hst, hc2, hn⟩ := composePair_ne hj hp
          rw [ih n marks lastcc, List.count_cons_of_ne (Ne.symm hn),
            List.count_cons_of_ne (Ne.symm hst),
            List.count_cons_of_ne (Ne.symm hc2)]
      · rw [if_neg hlt, ih st (c :: marks) (cccOf c)]
        simp only [List.count_cons]
        omega

theorem canonCompose_count {j : Nat} (hj : j = zwj ∨ j = zwnj) (s : List Nat) :
    (canonCompose s).count j = s.count j := by
  induction s with
  | nil => rfl
  | cons c cs ih =>
    unfold canonCompose
    by_cases hc : (cccOf c == 0) = true
    · rw [if_pos hc, composeAux_count hj cs c [] 0]
      simp only [List.count_cons, List.count_nil]
      omega
    · rw [if_neg hc, List.count_cons, List.count_cons, ih]

theorem nfc_count {j : Nat} (hj : j = zwj ∨ j = zwnj) (s : List Nat) :
    (nfc s).count j = s.count j := by
  unfold nfc
  rw [canonCompose_count hj, canonOrder_count, nfdDecompose_count hj]

theorem pyLowerCp_eq_joiner {j x : Nat} (hj : j = zwj ∨ j = zwnj) :
    pyLowerCp x = j ↔ x = j := by
  have hjn : j = 8205 ∨ j = 8204 := by
    rcases hj with rfl | rfl
    · exact Or.inl rfl
    · exact Or.inr rfl
  unfold pyLowerCp
  split_ifs with h1 h2
  · simp only [Bool.and_eq_true, decide_eq_true_eq] at h1
    constructor <;> intro he <;> rcases hjn with rfl | rfl <;> omega
  · simp only [Bool.or_eq_true, Bool.and_eq_true, decide_eq_true_eq] at h2
    constructor <;> intro he <;> rcases hjn with rfl | rfl <;>
      rcases h2 with h2 | h2 <;> omega
  · exact Iff.rfl

theorem map_pyLower_count {j : Nat} (hj : j = zwj ∨ j = zwnj) (l : List Nat) :
    (l.map pyLowerCp).count j = l.count j := by
  induction l with
  | nil => rfl
  | cons c cs ih =>
    rw [List.map_cons]
    by_cases hc : c = j
    · subst hc
      rw [(pyLowerCp_eq_joiner hj).mpr rfl, List.count_cons_self,
        List.count_cons_self, ih]
    · have hne : pyLowerCp c ≠ j := fun he => hc ((pyLowerCp_eq_joiner hj).mp he)
      rw [List.count_cons_of_ne (Ne.symm hne), List.count_cons_of_ne
        (Ne.symm hc), ih]

theorem filter_keep_count {j : Nat} (hj : j = zwj ∨ j = zwnj) (l : List Nat) :
    (l.filter keepTitleCp).count j = l.count j := by
  induction l with
  | nil => rfl
  | cons c cs ih =>
    rw [List.filter_cons]
    by_cases hk : keepTitleCp c = true
    · rw [if_pos hk, List.count_cons, List.count_cons, ih]
    · have hcj : c ≠ j := by
        intro he
        subst he
        apply hk
        unfold keepTitleCp
        rcases hj with rfl | rfl <;> simp [zwj, zwnj]
      rw [if_neg hk, ih, List.count_cons_of_ne (Ne.symm hcj)]

theorem count_dropWhile_not {j : Nat} (p : Nat → Bool) (hp : p j = false)
    (l : List Nat) : (l.dropWhile p).count j = l.count j := by
  induction l with
  | nil => rfl
  | cons c cs ih =>
    rw [List.dropWhile_cons]
    by_cases hc : p c = true
    · have hjc : j ≠ c := fun he => by rw [he, hc] at hp; cases hp
      rw [if_pos hc, ih, List.count_cons_of_ne hjc]
    · rw [if_neg hc]

theorem pyStrip_count {j : Nat} (hj : isPySpaceCp j = false) (l : List Nat) :
    (pyStrip l).count j = l.count j := by
  unfold pyStrip
  rw [List.count_reverse, count_dropWhile_not _ hj, List.count_reverse,
    count_dropWhile_not _ hj]

/-- C8 counterexample: `normalize_title` is not idempotent for every string —
stripping a non-word character between two Hangul jamo enables a new NFC
composition on the second pass. -/
theorem normalizeTitle_not_idempotent_jamo :
    normalizeTitle [0x1100, 0x20, 0x1161] = [0x1100, 0x1161] ∧
      normalizeTitle (normalizeTitle [0x1100, 0x20, 0x1161]) = [0xAC00] ∧
      normalizeTitle (normalizeTitle [0x1100, 0x20, 0x1161]) ≠
        normalizeTitle [0x1100, 0x20, 0x1161] := by
  exact ⟨by decide, by decide, by decide⟩

/-- C8 amended: `normalize_title` preserves every occurrence of ZWJ (U+200D)
and ZWNJ (U+200C) for all inputs, and on the Sinhala title "ශ්‍රී ලංකාව" it
retains the ZWJ and is a fixed point of a second normalization; full
idempotence fails only where deletion enables a new NFC composition (see the
Hangul-jamo counterexample). -/
theorem normalizeTitle_joiners_and_sinhala :
    (∀ s : List Nat, (normalizeTitle s).count zwj = s.count zwj ∧
      (normalizeTitle s).count zwnj = s.count zwnj) ∧
    normalizeTitle (normalizeTitle sinhalaTitle) = normalizeTitle sinhalaTitle ∧
    zwj ∈ normalizeTitle sinhalaTitle := by
  refine ⟨fun s => ⟨?_, ?_⟩, by decide, by decide⟩
  · unfold normalizeTitle
    rw [pyStrip_count (by decide), filter_keep_count (Or.inl rfl),
      map_pyLower_count (Or.inl rfl), nfc_count (Or.inl rfl)]
  · unfold normalizeTitle
    rw [pyStrip_count (by decide), filter_keep_count (Or.inr rfl),
      map_pyLower_count (Or.inr rfl), nfc_count (Or.inr rfl)]

theorem removeDeadLink_no_url {t : List DeadLink} {u : String} :
    ∀ r ∈ removeDeadLink t u, r.url ≠ u := by
  intro r hr
  unfold removeDeadLink at hr
  have hcond := List.of_mem_filter hr
  simpa using hcond

theorem getAllDeadUrls_not_mem {t : List DeadLink} {u : String} {sid : Nat}
    {now : Int} (h : ∀ r ∈ t, r.url ≠ u) : u ∉ getAllDeadUrls t sid now := by
  unfold getAllDeadUrls
  intro hm
  rw [List.mem_map] at hm
  obtain ⟨r, hr, hru⟩ := hm
  exact h r (List.mem_filter.mp hr).1 hru

theorem scrapeAndInsert_skip_shape (st : WorkerStepState) (sourceId : Nat)
    (item : RSSItem) (a : ScrapedArticle) (now : Int)
    (hc : 100 ≤ a.content.length)
    (hskip : a.publishedAt = none ∨
      titleDupCheck st.existingTitles item.title = true) :
    (scrapeAndInsert st sourceId item (.article a) now).deadLinks =
      removeDeadLink st.deadLinks item.link ∧
    (scrapeAndInsert st sourceId item (.article a) now).articles =
      st.articles := by
  have hcne : ¬((a.content.isEmpty || decide (a.content.length < 100)) = true) := by
    simp only [Bool.or_eq_true, decide_eq_true_eq, List.isEmpty_iff]
    rintro (he | hlt)
    · rw [he] at hc; simp at hc
    · omega
  unfold scrapeAndInsert
  rcases hpa : a.publishedAt with _ | d
  · simp only [hpa, Option.isNone_none, if_true]
    rw [if_neg hcne]
    exact ⟨rfl, rfl⟩
  · have hdup : titleDupCheck st.existingTitles item.title = true := by
      rcases hskip with hnone | hdup
      · rw [hpa] at hnone; cases hnone
      · exact hdup
    simp only [hpa, Option.isNone_some, Bool.false_eq_true, if_false]
    rw [if_neg hcne, if_pos hdup]
    exact ⟨rfl, rfl⟩

/-- C10: when a scrape yields a `ScrapedArticle` with content of at least 100
characters, the worker deletes any dead-link row for the url before the
published-date and duplicate checks, so a url skipped for lack of a date or as
a duplicate ends the step with neither an article row nor a dead-link row, and
is not suppressed for rediscovery. -/
theorem scrapeAndInsert_skip_leaves_no_rows (st : WorkerStepState)
    (sourceId : Nat) (item : RSSItem) (a : ScrapedArticle) (now : Int)
    (hc : 100 ≤ a.content.length)
    (hskip : a.publishedAt = none ∨
      titleDupCheck st.existingTitles item.title = true)
    (hnew : ∀ r ∈ st.articles, r.url ≠ item.link) :
    (∀ r ∈ (scrapeAndInsert st sourceId item (.article a) now).deadLinks,
      r.url ≠ item.link) ∧
    (∀ r ∈ (scrapeAndInsert st sourceId item (.article a) now).articles,
      r.url ≠ item.link) ∧
    item.link ∉
      getAllDeadUrls (scrapeAndInsert st sourceId item (.article a) now).deadLinks
        sourceId now := by
  obtain ⟨hdead, harts⟩ := scrapeAndInsert_skip_shape st sourceId item a now hc hskip
  refine ⟨?_, ?_, ?_⟩
  · rw [hdead]
    exact removeDeadLink_no_url
  · rw [harts]
    exact hnew
  · rw [hdead]
    exact getAllDeadUrls_not_mem removeDeadLink_no_url

/-- Closed witness for the C10 theorem: a concrete dateless article whose url
had a dead-link row; after the step the registry row is gone and no article
row exists. -/
theorem scrapeAndInsert_skip_witness :
    (∀ r ∈ (scrapeAndInsert
        ⟨[], [⟨1, "u", "timeout", 0, 0⟩], [], [], ⟨0, 0, 0, 0⟩⟩ 1
        ⟨[104, 105], "u", none, none⟩
        (.article ⟨[], List.replicate 100 97, none, none, none⟩) 5).deadLinks,
      r.url ≠ "u") ∧
    (∀ r ∈ (scrapeAndInsert
        ⟨[], [⟨1, "u", "timeout", 0, 0⟩], [], [], ⟨0, 0, 0, 0⟩⟩ 1
        ⟨[104, 105], "u", none, none⟩
        (.article ⟨[], List.replicate 100 97, none, none, none⟩) 5).articles,
      r.url ≠ "u") ∧
    "u" ∉ getAllDeadUrls
      (scrapeAndInsert ⟨[], [⟨1, "u", "timeout", 0, 0⟩], [], [], ⟨0, 0, 0, 0⟩⟩ 1
        ⟨[104, 105], "u", none, none⟩
        (.article ⟨[], List.replicate 100 97, none, none, none⟩) 5).deadLinks
      1 5 :=
  scrapeAndInsert_skip_leaves_no_rows
    ⟨[], [⟨1, "u", "timeout", 0, 0⟩], [], [], ⟨0, 0, 0, 0⟩⟩ 1
    ⟨[104, 105], "u", none, none⟩
    ⟨[], List.replicate 100 97, none, none, none⟩ 5
    (by decide) (Or.inl rfl) (by simp)

/-- C2: a page whose title still shows the interstitial marker after the full
10-poll budget makes `scrape_article_page` return Python `None` — never a
classified `ScrapeError` — and the worker step on that `None` records nothing
in the dead-link registry, merely counting an error. -/
theorem scrape_interstitial_returns_none_not_error :
    scrapeArticlePage
        ⟨true, "Just a moment...".data, fun _ => "Just a moment...".data,
          [], [], [], [], none, none⟩
        "https://example.com/article" none 0 = .pyNone ∧
    (∀ e : ScrapeError,
      scrapeArticlePage
          ⟨true, "Just a moment...".data, fun _ => "Just a moment...".data,
            [], [], [], [], none, none⟩
          "https://example.com/article" none 0 ≠ .scrapeError e) ∧
    scrapeAndInsert ⟨[], [], [], [], ⟨0, 0, 0, 0⟩⟩ 1
        ⟨[104, 105], "https://example.com/article", none, none⟩ .pyNone 0 =
      ⟨[], [], [], [], ⟨0, 0, 0, 1⟩⟩ := by
  have h1 : scrapeArticlePage
      ⟨true, "Just a moment...".data, fun _ => "Just a moment...".data,
        [], [], [], [], none, none⟩
      "https://example.com/article" none 0 = .pyNone := by decide
  refine ⟨h1, ?_, by decide⟩
  intro e he
  rw [h1] at he
  cases he

/-- C9: with two live workers both inside a scrape and a recent error rate of
50 percent, the autoscaler pass cancels the newest worker via `task.cancel()`,
aborting its in-flight scrape, and never sets the stop event — contradicting
the claim that removed workers observe a stop signal and complete their
in-flight scrape. -/
theorem autoscaler_scaleDown_aborts_inflight_scrape :
    errorRateHigh 1 2 = true ∧
      autoscalerStep ⟨[⟨false, true, false, false⟩, ⟨false, true, false, false⟩],
          false, 2, 1, 0⟩ =
        ⟨[⟨false, true, false, false⟩, ⟨true, true, true, true⟩], false, 2, 1, 0⟩ ∧
      (⟨true, true, true, true⟩ : WorkerTask).scrapeAborted = true := by
  refine ⟨rfl, ?_, rfl⟩
  decide

end NewsAgg
